import Mathlib

/-!
Verification development for the AgentShield message-interception pipeline.

The definitions below are a shallow embedding of the Python sources under
`backend/`.  Numeric values are modelled as exact rationals (`ℚ`) or reals
(`ℝ`); Python dictionaries keyed by insertion order are modelled as
association lists; synchronous exceptions are modelled with `Except`.
Cryptographic hash digests (SHA-256) are modelled as opaque digest
functions passed in as parameters: all theorems quantify over every
possible digest, which covers the behaviour of the real hash.
-/

namespace AgentShield

/-! ### Drift-engine embedding (`backend/classifiers/drift_engine.py`)

`embed_turn` builds a 384-float unit vector from 12 SHA-256 digests of
`text ‖ i`.  A digest is modelled as a function from the iteration index
and the byte position to a byte value; the digest of a given text is a
fixed function, so quantifying over all digest functions covers every
text (including the empty string, for which the source substitutes
`(text or "")` before encoding). -/

def DigestFun : Type := ℕ → ℕ → Fin 256

/-- One component of the raw (pre-normalization) vector:
`vec[idx] = (h[j] / 255.0) * 2.0 - 1.0` with `idx = i * 32 + j`. -/
noncomputable def rawComponent (d : DigestFun) (idx : ℕ) : ℝ :=
  ((d (idx / 32) (idx % 32) : ℕ) : ℝ) / 255 * 2 - 1

/-- The raw 384-vector: the source loops `i in range(12)`, `j in range(32)`,
filling `idx = i*32 + j` (the `idx < 384` guard in the source is always
true since `12 * 32 = 384`). -/
noncomputable def rawVec (d : DigestFun) : List ℝ :=
  (List.range 384).map (rawComponent d)

/-- Sum of squares of a vector (the square of its L2 norm). -/
noncomputable def sumSq (l : List ℝ) : ℝ :=
  (l.map (fun x => x ^ 2)).sum

/-- `embed_turn`: normalize the raw vector by its L2 norm when the norm is
positive (`if norm > 0: vec /= norm`). -/
noncomputable def embed_turn (d : DigestFun) : List ℝ :=
  let v := rawVec d
  let norm := Real.sqrt (sumSq v)
  if 0 < norm then v.map (fun x => x / norm) else v

/-! ### Session risk and honeypot decision
(`backend/api/session_manager.py`, `backend/classifiers/adversarial_response_layer.py`) -/

/-- `update_session_risk`: exponential moving average with `alpha = 0.6`:
`cumulative = 0.6 * new + 0.4 * old`. -/
def update_session_risk (old new : ℚ) : ℚ :=
  (6 / 10) * new + (1 - 6 / 10) * old

/-- Cumulative risk of a session that starts at `0.0` after a sequence of
per-turn risk scores. -/
def riskAfter (scores : List ℚ) : ℚ :=
  scores.foldl (fun acc s => update_session_risk acc s) 0

/-- Result record of `AdversarialResponseLayer.evaluate`. -/
structure HoneypotResult where
  should_redirect : Bool
  target_llm : String
  reason : String
  persistence_score : ℚ
  sophistication : String
  tarpit_delay_ms : ℕ
  decoy_persona : String
  deriving Repr, DecidableEq

/-- `_calculate_sophistication`: persistence/diversity score plus the
`SOPHISTICATION_LEVELS` range table `(0,2) (2,5) (5,10) (10,100)`,
iterated in insertion order, with the `persistent_threat` fallback. -/
def calculate_sophistication (attack_count unique_vectors : ℕ) :
    String × ℕ × ℚ :=
  let persistence := min ((attack_count : ℚ) / 10) 1
  let diversity := min ((unique_vectors : ℚ) / 5) 1
  let score := (persistence + diversity) / 2
  if attack_count < 2 then ("novice", 0, score)
  else if attack_count < 5 then ("intermediate", 500, score)
  else if attack_count < 10 then ("advanced", 1000, score)
  else if attack_count < 100 then ("persistent_threat", 2000, score)
  else ("persistent_threat", 2000, score)

def DECOY_PERSONAS : List String :=
  ["naive_assistant", "overly_helpful_bot", "confused_model",
   "security_researcher_trap"]

/-- `AdversarialResponseLayer.evaluate`: the three redirect triggers,
applied in source order (the cumulative-risk branch overrides the
persistent-attacker branch; the attack-persistence branch fires only when
no earlier branch did). -/
def evaluate_honeypot (high_risk_user : Bool) (attack_count : ℕ)
    (unique_attack_vectors : ℕ) (cumulative_risk : ℚ) : HoneypotResult :=
  let lds := calculate_sophistication attack_count unique_attack_vectors
  let sr1 := high_risk_user && decide (2 ≤ attack_count)
  let persona1 :=
    if sr1 then (DECOY_PERSONAS.getD (attack_count % DECOY_PERSONAS.length) "")
    else ""
  let reason1 := if sr1 then "Persistent attacker" else ""
  let sr2 := sr1 || decide ((2 : ℚ) < cumulative_risk)
  let persona2 :=
    if decide ((2 : ℚ) < cumulative_risk) then "security_researcher_trap" else persona1
  let reason2 :=
    if decide ((2 : ℚ) < cumulative_risk) then "Cumulative risk threshold exceeded"
    else reason1
  let sr3 := sr2 || decide (5 ≤ attack_count)
  let persona3 := if !sr2 && decide (5 ≤ attack_count) then "naive_assistant" else persona2
  let reason3 :=
    if !sr2 && decide (5 ≤ attack_count) then "Attack persistence threshold" else reason2
  { should_redirect := sr3
    target_llm := if sr3 then "decoy-phi3" else "primary"
    reason := reason3
    persistence_score := lds.2.2
    sophistication := lds.1
    tarpit_delay_ms := if sr3 then lds.2.1 else 0
    decoy_persona := persona3 }

/-! ### Adaptive rule engine (`backend/classifiers/adaptive_engine.py`)

`PENDING_PATTERNS` is a Python dict keyed by the SHA-256 hexdigest of the
raw attack text; since the durable store deduplicates by the exact text
and the engine never inverts the fingerprint, the fingerprint is modelled
by the text itself (SHA-256 treated as collision-free).  The wall-clock
fields `first_seen` / `last_seen` and the `_LAST_PROCESSED` stamp carry
no decision logic and are omitted.  The engine's module-level state is
modelled by `EngineState`; `record_attack_event` returns `Except` — an
error is raised before any mutation, so the caller's state is unchanged
on failure, exactly as in the source. -/

/-- `_hash_text_to_384` (adaptive-engine copy of the drift embedding):
normalize with `sum(v*v) ** 0.5` when positive.  `D` maps each text to
its digest function. -/
noncomputable def hash_text_to_384 (D : String → DigestFun) (text : String) :
    List ℝ :=
  embed_turn (D text)

structure PendingEntry where
  count : ℕ
  attack_type : String
  examples : List String
  session_ids : List String
  layers_caught : List ℤ
  promoted : Bool

structure AttackSeed where
  text : String
  embedding : List ℝ
  attack_type : String

/-- Pending-pattern dict (insertion-ordered association list keyed by the
fingerprint) together with the `attack_seeds.json` contents. -/
structure EngineState where
  pending : List (String × PendingEntry)
  seeds : List AttackSeed

/-- Python `not s.strip()`: true iff the string is empty or
whitespace-only. -/
def pyBlank (s : String) : Bool :=
  s.data.all Char.isWhitespace

/-- `_validate_inputs`: the checks in source order (the `isinstance`
checks cannot fail in a typed embedding).  Returns the raised message,
`none` when validation passes.  The raised class in the source is
`FailSecureError`, the spec's synchronous validation error. -/
def validate_inputs (attack_text attack_type : String) (layer : ℤ)
    (session_id : String) : Option String :=
  if pyBlank attack_text then some "attack_text must not be empty or whitespace-only"
  else if pyBlank attack_type then some "attack_type must be a non-empty string"
  else if layer < 1 || 9 < layer then some "layer must be between 1 and 9"
  else if pyBlank session_id then some "session_id must be a non-empty string"
  else none

/-- Fresh `PENDING_PATTERNS` entry created when the fingerprint is new. -/
def freshEntry (attack_type : String) : PendingEntry :=
  { count := 0, attack_type := attack_type, examples := [], session_ids := []
    layers_caught := [], promoted := false }

/-- The per-record mutation of an entry: increment count, dedup-append the
example text, union the session id and the layer. -/
def bumpEntry (e : PendingEntry) (text : String) (layer : ℤ)
    (session_id : String) : PendingEntry :=
  { e with
    count := e.count + 1
    examples := if text ∈ e.examples then e.examples else e.examples ++ [text]
    session_ids :=
      if session_id ∈ e.session_ids then e.session_ids
      else e.session_ids ++ [session_id]
    layers_caught :=
      if layer ∈ e.layers_caught then e.layers_caught
      else e.layers_caught ++ [layer] }

def lookupPending (l : List (String × PendingEntry)) (k : String) :
    Option PendingEntry :=
  (l.find? (fun p => p.1 == k)).map (·.2)

/-- `record_attack_event`: validate, then create/update the pending entry
for the text's fingerprint (dict insertion order: a new key is appended). -/
def record_attack_event (attack_text attack_type : String) (layer : ℤ)
    (session_id : String) (s : EngineState) : Except String EngineState :=
  match validate_inputs attack_text attack_type layer session_id with
  | some msg => .error msg
  | none =>
    match lookupPending s.pending attack_text with
    | some e =>
      .ok { s with pending := s.pending.map (fun p =>
        if p.1 == attack_text then (p.1, bumpEntry e attack_text layer session_id)
        else p) }
    | none =>
      .ok { s with pending := s.pending ++
        [(attack_text, bumpEntry (freshEntry attack_type) attack_text layer session_id)] }

/-- The promotion loop of `process_pending_patterns`, threading the
`existing` seed list (the source's `existing_texts` set always mirrors the
texts of the accumulated seed list).  Returns the updated pending entries
(in order), the final seed list, and the `(promoted, pending)` counters. -/
noncomputable def sweepGo (D : String → DigestFun) :
    List (String × PendingEntry) → List AttackSeed →
    List (String × PendingEntry) × List AttackSeed × ℕ × ℕ
  | [], seeds => ([], seeds, 0, 0)
  | (k, e) :: rest, seeds =>
    if e.promoted then
      let r := sweepGo D rest seeds
      ((k, e) :: r.1, r.2)
    else if 3 ≤ e.count then
      let t := e.examples.headD ""
      let seeds1 :=
        if t ∈ seeds.map AttackSeed.text then seeds
        else seeds ++ [⟨t, hash_text_to_384 D t, e.attack_type⟩]
      let r := sweepGo D rest seeds1
      ((k, { e with promoted := true }) :: r.1, r.2.1, r.2.2.1 + 1, r.2.2.2)
    else
      let r := sweepGo D rest seeds
      ((k, e) :: r.1, r.2.1, r.2.2.1, r.2.2.2 + 1)

/-- `process_pending_patterns`: one explicit sweep over the pending dict;
returns the `{"promoted": _, "pending": _}` counters and the new state. -/
noncomputable def process_pending_patterns (D : String → DigestFun)
    (s : EngineState) : (ℕ × ℕ) × EngineState :=
  let r := sweepGo D s.pending s.seeds
  ((r.2.2.1, r.2.2.2), ⟨r.1, r.2.1⟩)

/-- Texts of the durable attack-seed store. -/
def seedTexts (s : EngineState) : List String :=
  s.seeds.map AttackSeed.text

/-- One engine operation: a `record_attack` call (a raised validation
error leaves the module state unchanged) or a promotion sweep. -/
inductive EngineOp
  | record (text ty : String) (layer : ℤ) (sid : String)
  | sweep

noncomputable def runOp (D : String → DigestFun) (s : EngineState) :
    EngineOp → EngineState
  | .record text ty layer sid =>
    match record_attack_event text ty layer sid s with
    | .ok s' => s'
    | .error _ => s
  | .sweep => (process_pending_patterns D s).2

noncomputable def runOps (D : String → DigestFun) (ops : List EngineOp)
    (s : EngineState) : EngineState :=
  ops.foldl (runOp D) s

/-! ### Turn-processing pipeline (`backend/api/chat.py`)

Each stage's analysis function (`analyze_ingestion`, `scan_pre_execution`,
`verify_memory`, `analyze_conversation`, `evaluate_honeypot`,
`validate_agent_interaction`, `filter_output`) consumes the message plus
session context and either returns its result record or raises.  Those
calls are modelled as `Except`-valued oracles: quantifying over the
oracle covers every behaviour of the analysis code, including the
`DetectorFailure` case of the spec.  `Except.error` on a stage oracle
means "the call raised"; in the translation of `chat` it is converted to
a maximum-threat result exactly where the source has a `try/except`, and
propagated out of `chat` where it does not.  The fire-and-forget logging
calls (`log_event`, `log_session_start`, `record_security_event`) carry
no decision logic and are omitted; the audit trail
(`record_layer_decision`) and the event stream (`emit_event`) are
recorded in the outcome. -/

/-- `analyze_ingestion` result fields used by `chat`. -/
structure L1Raw where
  is_blocked : Bool
  risk_score : ℚ
  reason : String
  detected_language : String
  injection_vectors : List String

/-- `scan_pre_execution` result fields used by `chat`. -/
structure L2Raw where
  is_blocked : Bool
  overall_risk : ℚ
  reason : String
  threat_details : List String

/-- `verify_memory` result fields used by `chat`. -/
structure L3Raw where
  is_tampered : Bool
  risk_score : ℚ
  reason : String
  poison_patterns_found : List String
  context_hash : String

structure DriftPoint where
  x : ℚ
  y : ℚ

/-- `analyze_conversation` result fields used by `chat`. -/
structure L4Raw where
  risk_score : ℚ
  drift_score : ℚ
  velocity : ℚ
  escalation_detected : Bool
  trajectory : List DriftPoint
  detected_topics : List String

/-- `evaluate_honeypot` result fields used by `chat`. -/
structure HoneyRaw where
  should_redirect : Bool
  reason : String

/-- `validate_agent_interaction` result fields used by `chat`. -/
structure L7Raw where
  is_trusted : Bool
  risk_score : ℚ
  reason : String
  violations : List String

/-- `filter_output` result fields used by `chat`. -/
structure L5Raw where
  is_leaked : Bool
  leak_type : String
  filtered_content : String

/-- The `ClassifierResult` dataclass of `chat.py` (stage-specific metadata
is modelled by the dedicated accessor functions below). -/
structure ClassifierResult where
  passed : Bool
  threat_score : ℚ
  reason : String
  owasp_tag : String
  deriving DecidableEq

/-- Layer 1 wrapper: `try: ... except Exception: ClassifierResult(passed=False,
threat_score=1.0, ...)`. -/
def wrapL1 : Except Unit L1Raw → ClassifierResult
  | .ok r => ⟨!r.is_blocked, r.risk_score, r.reason, "LLM01:2025"⟩
  | .error _ => ⟨false, 1, "Layer 1 error", "LLM01:2025"⟩

def wrapL2 : Except Unit L2Raw → ClassifierResult
  | .ok r => ⟨!r.is_blocked, r.overall_risk, r.reason, "LLM05:2025"⟩
  | .error _ => ⟨false, 1, "Layer 2 error", "LLM05:2025"⟩

def wrapL3 : Except Unit L3Raw → ClassifierResult
  | .ok r => ⟨!r.is_tampered, r.risk_score, r.reason, "LLM08:2025"⟩
  | .error _ => ⟨false, 1, "Layer 3 error", "LLM08:2025"⟩

/-- The `%.2f`-formatted drift reason; decimal formatting is abstracted as
exact rational rendering (its content is never branched on). -/
def driftReason (d v : ℚ) : String :=
  "Drift: " ++ toString d ++ ", Velocity: " ++ toString v

def wrapL4 : Except Unit L4Raw → ClassifierResult
  | .ok r =>
    ⟨decide (r.risk_score ≤ 7 / 10), r.risk_score,
      if r.escalation_detected then driftReason r.drift_score r.velocity else "",
      "LLM01:2025"⟩
  | .error _ => ⟨false, 1, "Layer 4 error", "LLM01:2025"⟩

def wrapL5 : Except Unit L5Raw → ClassifierResult
  | .ok r =>
    ⟨!r.is_leaked, if r.is_leaked then 8 / 10 else 0,
      if r.is_leaked then "Leak detected: " ++ r.leak_type else "", "LLM06:2025"⟩
  | .error _ => ⟨false, 1, "Layer 5 error", "LLM06:2025"⟩

/-- `l1_result.metadata.get("injection_vectors", [])` (the error branch
leaves `metadata = {}`). -/
def l1Vectors : Except Unit L1Raw → List String
  | .ok r => r.injection_vectors
  | .error _ => []

/-- `l4_result.metadata.get("velocity", 0)`. -/
def l4Velocity : Except Unit L4Raw → ℚ
  | .ok r => r.velocity
  | .error _ => 0

/-- `x_coord` from the last trajectory point (`{"x": 0.0, "y": 0.0}` when
the trajectory is empty or the metadata is absent). -/
def l4X : Except Unit L4Raw → ℚ
  | .ok r => ((r.trajectory.getLast?).getD ⟨0, 0⟩).x
  | .error _ => 0

def l4Y : Except Unit L4Raw → ℚ
  | .ok r => ((r.trajectory.getLast?).getD ⟨0, 0⟩).y
  | .error _ => 0

/-- `metadata["nearest_cluster"] = detected_topics[0] or "general"`; the
honeypot path reads it with default `"unknown"`. -/
def l4NearestCluster : Except Unit L4Raw → String
  | .ok r => r.detected_topics.headD "general"
  | .error _ => "unknown"

/-- `l5_result.metadata["redacted_response"]`: the filtered content on a
normal result, the fixed safety message when Layer 5 raised. -/
def l5Redacted : Except Unit L5Raw → String
  | .ok r => r.filtered_content
  | .error _ => "[Output blocked due to safety error]"

structure ChatRequest where
  session_id : String
  message : String
  role : String

/-- The session fields `chat` branches on (`conversation_history` and
`memory_content` only feed the analyzers and the generator, whose
behaviour the oracles already capture). -/
structure SessionLite where
  turn_count : ℕ
  cumulative_risk_score : ℚ

/-- Oracles for the stage analysis calls and the two generator calls made
by one `chat` invocation.  For `llm` and `honeyLlm`, `.error` stands for
the `LLMConnectionError` that the source catches. -/
structure ChatOracles where
  l1 : Except Unit L1Raw
  l2 : Except Unit L2Raw
  l3 : Except Unit L3Raw
  l4 : Except Unit L4Raw
  honey : Except Unit HoneyRaw
  honeyLlm : Except Unit String
  l7 : Except Unit L7Raw
  llm : Except Unit String
  l5 : Except Unit L5Raw

structure LayerSummary where
  layer : ℕ
  action : String
  threat_score : ℚ
  deriving DecidableEq

/-- One `record_layer_decision` audit record. -/
structure AuditEntry where
  layer : ℕ
  action : String
  reason : String
  threat_score : ℚ
  deriving DecidableEq

/-- One `emit_event` security event. -/
structure EventEntry where
  layer : ℕ
  action : String
  threat_score : ℚ
  reason : String
  owasp_tag : String
  turn_number : ℕ
  deriving DecidableEq

/-- The `ChatResponse` pydantic model returned to the caller. -/
structure ChatResponse where
  session_id : String
  response : String
  blocked : Bool
  block_reason : Option String
  block_layer : Option ℕ
  turn_number : ℕ
  layers : List LayerSummary
  deriving DecidableEq

/-- Value of one `chat` call: the response plus the audit-trail and
event-stream records it appended, and whether `mark_as_honeypot` ran. -/
structure ChatOutcome where
  resp : ChatResponse
  audit : List AuditEntry
  events : List EventEntry
  honeypot_marked : Bool
  deriving DecidableEq

def agent_keywords : List String :=
  ["[AGENT]", "[SYSTEM]", "agent_call:", "inter_agent:"]

/-- `needle` occurs at the start of `hay`. -/
def leadMatch : List Char → List Char → Bool
  | [], _ => true
  | _ :: _, [] => false
  | a :: as, b :: bs => a == b && leadMatch as bs

/-- Python's `needle in hay` substring test. -/
def strContains (hay needle : List Char) : Bool :=
  if leadMatch needle hay then true
  else
    match hay with
    | [] => false
    | _ :: t => strContains t needle

/-- Tail of `chat` (lines 352–414): generator call, Layer 5 output guard,
redaction substitution and finalization.  `add_turn` increments
`turn_count` before the response reads it, hence `turn_count + 1`. -/
def chatFinal (req : ChatRequest) (sess : SessionLite) (o : ChatOracles)
    (audit : List AuditEntry) (events : List EventEntry)
    (sums : List LayerSummary) : Except Unit ChatOutcome :=
  let response :=
    match o.llm with
    | .ok s => s
    | .error _ => "I'm currently unable to process your request. Please try again later."
  let r5 := wrapL5 o.l5
  let a5 := if r5.passed then "PASSED" else "FLAGGED"
  let audit5 := audit ++ [⟨5, a5, r5.reason, r5.threat_score⟩]
  let events5 := events ++
    [⟨5, a5, r5.threat_score, r5.reason, r5.owasp_tag, sess.turn_count + 1⟩]
  let sums5 := sums ++ [⟨5, a5, r5.threat_score⟩]
  let response' := if r5.passed then response else l5Redacted o.l5
  .ok ⟨⟨req.session_id, response', false, none, none, sess.turn_count + 1, sums5⟩,
    audit5, events5, false⟩

/-- Layer 7 gate plus the tail (lines 317–350): the
`validate_agent_interaction` call is **not** wrapped in `try/except` — an
exception there propagates out of `chat`. -/
def chatAgent (req : ChatRequest) (sess : SessionLite) (o : ChatOracles)
    (audit : List AuditEntry) (events : List EventEntry)
    (sums : List LayerSummary) : Except Unit ChatOutcome :=
  if agent_keywords.any (fun kw => strContains req.message.data kw.data) then
    match o.l7 with
    | .error e => .error e
    | .ok r7 =>
      let a7 := if r7.is_trusted then "PASSED" else "BLOCKED"
      let audit7 := audit ++ [⟨7, a7, r7.reason, r7.risk_score⟩]
      let events7 := events ++
        [⟨7, a7, r7.risk_score, r7.reason, "LLM09:2025", sess.turn_count + 1⟩]
      let sums7 := sums ++ [⟨7, a7, r7.risk_score⟩]
      if r7.is_trusted then chatFinal req sess o audit7 events7 sums7
      else
        .ok ⟨⟨req.session_id, "Inter-agent request blocked due to trust violation.",
          true, some r7.reason, some 7, sess.turn_count + 1, sums7⟩,
          audit7, events7, false⟩
  else chatFinal req sess o audit events sums

/-- The `chat` endpoint (lines 56–414). -/
def chat (req : ChatRequest) (sess : SessionLite) (o : ChatOracles) :
    Except Unit ChatOutcome :=
  -- Layer 1
  let r1 := wrapL1 o.l1
  let a1 := if r1.passed then "PASSED" else "BLOCKED"
  let audit1 : List AuditEntry := [⟨1, a1, r1.reason, r1.threat_score⟩]
  let events1 : List EventEntry :=
    [⟨1, a1, r1.threat_score, r1.reason, r1.owasp_tag, sess.turn_count + 1⟩]
  let sums1 : List LayerSummary := [⟨1, a1, r1.threat_score⟩]
  if !r1.passed then
    .ok ⟨⟨req.session_id, "Your message was blocked by the security layer.", true,
      some r1.reason, some 1, sess.turn_count + 1, sums1⟩, audit1, events1, false⟩
  else
  -- Layer 2
  let r2 := wrapL2 o.l2
  let a2 := if r2.passed then "PASSED" else "BLOCKED"
  let audit2 := audit1 ++ [⟨2, a2, r2.reason, r2.threat_score⟩]
  let events2 := events1 ++
    [⟨2, a2, r2.threat_score, r2.reason, r2.owasp_tag, sess.turn_count + 1⟩]
  let sums2 := sums1 ++ [⟨2, a2, r2.threat_score⟩]
  if !r2.passed then
    .ok ⟨⟨req.session_id, "Your message was blocked by the security layer.", true,
      some r2.reason, some 2, sess.turn_count + 1, sums2⟩, audit2, events2, false⟩
  else
  -- Layer 3
  let r3 := wrapL3 o.l3
  let a3 := if r3.passed then "PASSED" else "QUARANTINED"
  let audit3 := audit2 ++ [⟨3, a3, r3.reason, r3.threat_score⟩]
  let events3 := events2 ++
    [⟨3, a3, r3.threat_score, r3.reason, r3.owasp_tag, sess.turn_count + 1⟩]
  let sums3 := sums2 ++ [⟨3, a3, r3.threat_score⟩]
  if !r3.passed then
    .ok ⟨⟨req.session_id, "Session memory integrity check failed. Message blocked.",
      true, some r3.reason, some 3, sess.turn_count + 1, sums3⟩,
      audit3, events3, false⟩
  else
  -- Layer 4
  let r4 := wrapL4 o.l4
  let a4 := if r4.passed then "PASSED" else "BLOCKED"
  let audit4 := audit3 ++ [⟨4, a4, r4.reason, r4.threat_score⟩]
  let events4 := events3 ++
    [⟨4, a4, r4.threat_score, r4.reason, r4.owasp_tag, sess.turn_count + 1⟩]
  let sums4 := sums3 ++ [⟨4, a4, r4.threat_score⟩]
  if !r4.passed then
    .ok ⟨⟨req.session_id, "Multi-turn attack pattern detected. Message blocked.",
      true, some r4.reason, some 4, sess.turn_count + 1, sums4⟩,
      audit4, events4, false⟩
  else
  -- Honeypot check (Layer 6): `evaluate_honeypot` is **not** wrapped in
  -- `try/except` — an exception there propagates out of `chat`.
  let velocity := l4Velocity o.l4
  match o.honey with
  | .error e => .error e
  | .ok hraw =>
    let should_honeypot := hraw.should_redirect ||
      (decide ((8 : ℚ) / 10 < velocity) &&
        decide ((85 : ℚ) / 100 < sess.cumulative_risk_score))
    if should_honeypot then
      let response :=
        match o.honeyLlm with
        | .ok s => s
        | .error _ => "I can help with that. Let me look into it for you."
      let events6 := events4 ++
        [⟨6, "HONEYPOT", r4.threat_score, hraw.reason, "LLM01:2025",
          sess.turn_count + 1⟩]
      let sums6 := sums4 ++ [⟨6, "HONEYPOT", r4.threat_score⟩]
      .ok ⟨⟨req.session_id, response, false, none, none, sess.turn_count + 1,
        sums6⟩, audit4, events6, true⟩
    else chatAgent req sess o audit4 events4 sums4

/-- Uniform view of the wrapped Stage1–Stage4 results of one turn. -/
def stageRes (o : ChatOracles) : ℕ → ClassifierResult
  | 1 => wrapL1 o.l1
  | 2 => wrapL2 o.l2
  | 3 => wrapL3 o.l3
  | 4 => wrapL4 o.l4
  | _ => ⟨true, 0, "", ""⟩

/-! ### RAG chunk scanner (`backend/classifiers/rag_scanner.py`)

The three detection methods score a chunk independently and the
corroboration model combines the scores.  Regex matching over all
possible chunks is over-approximated: each method's score is computed
from an arbitrary selection of its table entries, which covers (and
strictly includes) every selection an actual chunk can produce.  The
corroboration logic itself (`scan_rag_chunk`, lines 281–310) is
translated exactly. -/

/-- The weights of `_INSTRUCTION_PATTERNS`, in source order. -/
def INSTRUCTION_PATTERN_WEIGHTS : List ℚ :=
  [7/10, 7/10, 65/100, 6/10, 65/100, 7/10, 5/10, 7/10, 45/100, 6/10,
   8/10, 8/10, 5/10, 7/10, 7/10, 65/100, 6/10, 6/10, 6/10, 6/10,
   65/100, 4/10, 65/100, 55/100, 6/10, 55/100, 45/100, 6/10, 6/10, 55/100,
   55/100, 6/10, 6/10, 55/100, 6/10, 65/100, 6/10, 7/10, 65/100, 6/10]

/-- Sum of the selected entries of a weight table. -/
def selectedSum (ws : List ℚ) (sel : List Bool) : ℚ :=
  (List.zipWith (fun w b => if b then w else 0) ws sel).sum

/-- `_detect_instruction_patterns`: sum of the weights of the regexes
matching the chunk (the matching set modelled as an arbitrary selection),
capped at 1. -/
def method1Score (sel : List Bool) : ℚ :=
  min (selectedSum INSTRUCTION_PATTERN_WEIGHTS sel) 1

/-- `_detect_semantic_anomaly`: zero-width count, right-to-left override,
other invisible Unicode (only counted when no zero-width characters),
HTML-entity encoding, attack-phrase match (counted once); contributions
in source order, capped at 1. -/
def method2Score (zw : ℕ) (rlo invis html phrase : Bool) : ℚ :=
  let s0 : ℚ := 0
  let s1 := s0 + if 2 ≤ zw then 6/10 + min ((zw : ℚ) * (5/100)) (3/10) else 0
  let s2 := s1 + if rlo then 5/10 else 0
  let s3 := s2 + if invis && decide (zw = 0) then 3/10 else 0
  let s4 := s3 + if html then 4/10 else 0
  let s5 := s4 + if phrase then 35/100 else 0
  min s5 1

/-- `_detect_context_inconsistency`: flat `0.5` when a forbidden pattern
matches under a valid declared document type, else `0`. -/
def method3Score (docValid matched : Bool) : ℚ :=
  if docValid && matched then 1/2 else 0

/-- Python `round(q, 4)`. -/
def round4 (q : ℚ) : ℚ :=
  ((round (q * 10000) : ℤ) : ℚ) / 10000

def HIGH_CONFIDENCE_THRESHOLD : ℚ := 1/2

structure RagResult where
  passed : Bool
  threat_score : ℚ
  methods_triggered : ℕ
  deriving DecidableEq

/-- Corroboration logic of `scan_rag_chunk` over the three method scores:
no signal → 0; a single signal kept as-is when high-confidence, else
down-weighted by 0.6; two or more signals combined as `0.7 * sum`, capped;
`passed = threat_score < 0.45`. -/
def scan_rag_chunk (m1 m2 m3 : ℚ) : RagResult :=
  let triggered := ((([m1, m2, m3]).filter (fun s => decide (0 < s))).length)
  let threat :=
    if triggered = 0 then 0
    else if triggered = 1 then
      let solo := max m1 (max m2 m3)
      if HIGH_CONFIDENCE_THRESHOLD ≤ solo then solo else solo * (6/10)
    else min ((m1 + m2 + m3) * (7/10)) 1
  let threatR := round4 (min threat 1)
  { passed := decide (threatR < 45/100), threat_score := threatR
    methods_triggered := triggered }

/-! ### Output guard (`backend/classifiers/output_guard.py`)

PII detection is translated concretely: a small backtracking matcher with
Python `re` semantics (leftmost match per start position, greedy
quantifiers, left-biased alternation, non-overlapping `finditer` scan)
interprets the six `_PII_PATTERNS` regexes.  The system-prompt-leakage
and exfiltration detectors enter `check_output` as oracle inputs
(`leak`, `exfil`): every theorem about `check_output` quantifies over
them, covering all behaviours of those detectors. -/

/-- Regex subset used by `_PII_PATTERNS`: character classes,
concatenation, alternation, counted/greedy repetition, word boundary,
single-character negative lookbehind/lookahead. -/
inductive RE where
  | eps : RE
  | cls : (Char → Bool) → RE
  | seq : RE → RE → RE
  | alt : RE → RE → RE
  | rep : ℕ → Option ℕ → RE → RE
  | wordB : RE
  | nlb : (Char → Bool) → RE
  | nla : (Char → Bool) → RE

/-- Python `\w` (ASCII word character). -/
def isWordChar (c : Char) : Bool :=
  c.isAlphanum || c == '_'

/-- Backtracking matcher in continuation-passing style over positions of
`s`; `k` receives the position after the current node.  Greedy
quantifiers try the longer continuation first; alternation is
left-biased.  `fuel` bounds the recursion depth (any sufficiently large
value yields the match semantics). -/
def reMatch (s : List Char) : ℕ → RE → ℕ → (ℕ → Option ℕ) → Option ℕ
  | 0, _, _, _ => none
  | fuel + 1, r, i, k =>
    match r with
    | .eps => k i
    | .cls p =>
      match s.get? i with
      | some c => if p c then k (i + 1) else none
      | none => none
    | .seq a b => reMatch s fuel a i (fun j => reMatch s fuel b j k)
    | .alt a b =>
      (reMatch s fuel a i k).orElse (fun _ => reMatch s fuel b i k)
    | .rep lo hi r' =>
      match lo, hi with
      | 0, some 0 => k i
      | 0, some (m + 1) =>
        (reMatch s fuel r' i
          (fun j => reMatch s fuel (.rep 0 (some m) r') j k)).orElse
          (fun _ => k i)
      | 0, none =>
        (reMatch s fuel r' i
          (fun j => if i < j then reMatch s fuel (.rep 0 none r') j k
            else none)).orElse (fun _ => k i)
      | lo' + 1, _ =>
        reMatch s fuel r' i
          (fun j => reMatch s fuel (.rep lo' (hi.map (· - 1)) r') j k)
    | .wordB =>
      let wb := fun (oc : Option Char) =>
        match oc with
        | some c => isWordChar c
        | none => false
      let prev := if i = 0 then none else s.get? (i - 1)
      if wb prev != wb (s.get? i) then k i else none
    | .nlb p =>
      let prev := if i = 0 then none else s.get? (i - 1)
      if (match prev with | some c => p c | none => false) then none else k i
    | .nla p =>
      match s.get? i with
      | some c => if p c then none else k i
      | none => k i

/-- End position of the leftmost-greedy match of `r` at position `i`. -/
def matchAt (s : List Char) (r : RE) (i : ℕ) : Option ℕ :=
  reMatch s (200 * (s.length + 5)) r i some

/-- `re.finditer` scan: try each start position left to right, skip past
each match (non-overlapping). -/
def finditerGo (s : List Char) (r : RE) : ℕ → ℕ → List (ℕ × ℕ)
  | 0, _ => []
  | fuel + 1, i =>
    if s.length < i then []
    else
      match matchAt s r i with
      | some j => (i, j) :: finditerGo s r fuel (if i < j then j else i + 1)
      | none => finditerGo s r fuel (i + 1)

def reFinditer (s : List Char) (r : RE) : List (ℕ × ℕ) :=
  finditerGo s r (s.length + 2) 0

/-- Python `\s`. -/
def isSpaceC (c : Char) : Bool :=
  c == ' ' || c == '\t' || c == '\n' || c == '\r' || c == '\x0b' || c == '\x0c'

def isDigitC (c : Char) : Bool := c.isDigit
def isUpperAZ (c : Char) : Bool := 'A' ≤ c && c ≤ 'Z'
def isAlphaC (c : Char) : Bool := c.isAlpha
def isAlnumC (c : Char) : Bool := c.isAlphanum

def chrRE (c : Char) : RE := .cls (fun x => x == c)

def strRE (w : String) : RE :=
  w.data.foldr (fun c r => .seq (chrRE c) r) .eps

def seqRE (l : List RE) : RE := l.foldr .seq .eps

/-- `{n}` (exactly n). -/
def repN (n : ℕ) (r : RE) : RE := .rep n (some n) r

/-- `\b(\d{4}\s\d{4}\s\d{4})\b` — Aadhaar. -/
def aadhaarRE : RE :=
  seqRE [.wordB, repN 4 (.cls isDigitC), .cls isSpaceC, repN 4 (.cls isDigitC),
    .cls isSpaceC, repN 4 (.cls isDigitC), .wordB]

/-- `\b([A-Z]{5}\d{4}[A-Z])\b` — PAN card. -/
def panRE : RE :=
  seqRE [.wordB, repN 5 (.cls isUpperAZ), repN 4 (.cls isDigitC),
    .cls isUpperAZ, .wordB]

/-- `\b(\d{4}[-\s]\d{4}[-\s]\d{4}[-\s]\d{4})\b` — credit card. -/
def creditCardRE : RE :=
  let sep : RE := .cls (fun c => c == '-' || isSpaceC c)
  seqRE [.wordB, repN 4 (.cls isDigitC), sep, repN 4 (.cls isDigitC), sep,
    repN 4 (.cls isDigitC), sep, repN 4 (.cls isDigitC), .wordB]

/-- `\b((?:sk|pk)[-_](?:live|test|proj)?[-_]?[A-Za-z0-9]{10,})\b` — API key. -/
def apiKeyRE : RE :=
  seqRE [.wordB, .alt (strRE "sk") (strRE "pk"),
    .cls (fun c => c == '-' || c == '_'),
    .rep 0 (some 1) (.alt (strRE "live") (.alt (strRE "test") (strRE "proj"))),
    .rep 0 (some 1) (.cls (fun c => c == '-' || c == '_')),
    .rep 10 none (.cls isAlnumC), .wordB]

/-- `\b([A-Za-z0-9._%+-]+@[A-Za-z0-9.-]+\.[A-Za-z]{2,})\b` — email. -/
def emailRE : RE :=
  let localC : Char → Bool := fun c =>
    c.isAlphanum || c == '.' || c == '_' || c == '%' || c == '+' || c == '-'
  let domC : Char → Bool := fun c => c.isAlphanum || c == '.' || c == '-'
  seqRE [.wordB, .rep 1 none (.cls localC), chrRE '@', .rep 1 none (.cls domC),
    chrRE '.', .rep 2 none (.cls isAlphaC), .wordB]

/-- `(?<!\d)([6-9]\d{9})(?!\d)` — Indian phone. -/
def indianPhoneRE : RE :=
  seqRE [.nlb isDigitC, .cls (fun c => '6' ≤ c && c ≤ '9'),
    repN 9 (.cls isDigitC), .nla isDigitC]

/-- `_PII_PATTERNS`, in source order. -/
def PII_PATTERNS : List (RE × String) :=
  [(aadhaarRE, "aadhaar"), (panRE, "pan_card"), (creditCardRE, "credit_card"),
   (apiKeyRE, "api_key"), (emailRE, "email"), (indianPhoneRE, "indian_phone")]

structure Finding where
  type : String
  redacted : String
  deriving DecidableEq

/-- Worker for `pySplitWs`: `acc` is the word being accumulated. -/
def pySplitChars : List Char → List Char → List String
  | [], acc => if acc.isEmpty then [] else [String.mk acc]
  | c :: t, acc =>
    if c.isWhitespace then
      if acc.isEmpty then pySplitChars t []
      else String.mk acc :: pySplitChars t []
    else pySplitChars t (acc ++ [c])

/-- Python `value.split()` (split on whitespace runs, dropping empties). -/
def pySplitWs (value : String) : List String :=
  pySplitChars value.data []

/-- `_redact_pii`: mask a raw PII value according to its type. -/
def redact_pii (value : String) (pii_type : String) : String :=
  if pii_type == "aadhaar" then
    let parts := pySplitWs value
    if parts.length = 3 then
      parts.getD 0 "" ++ " **** " ++ parts.getD 2 ""
    else "****"
  else if pii_type == "email" then
    let l := value.data.takeWhile (fun c => c ≠ '@')
    let domain := value.data.drop (l.length + 1)
    String.mk (l.take 1) ++ "***@" ++ String.mk domain
  else if pii_type == "credit_card" then
    let last4 := String.mk (value.data.drop (value.length - 4))
    let sep := if '-' ∈ value.data then "-" else " "
    "****" ++ sep ++ "****" ++ sep ++ "****" ++ sep ++ last4
  else if pii_type == "api_key" then
    String.mk (value.data.take 3) ++ "****"
  else if pii_type == "indian_phone" then
    String.mk (value.data.take 2) ++ "******" ++
      String.mk (value.data.drop (value.length - 2))
  else if pii_type == "pan_card" then
    String.mk (value.data.take 1) ++ "****" ++
      String.mk (value.data.drop (value.length - 1))
  else "****"

/-- `_detect_pii`: every match of every PII pattern, in pattern order,
paired with its redaction. -/
def detect_pii (text : String) : List Finding :=
  PII_PATTERNS.flatMap (fun p =>
    (reFinditer text.data p.1).map (fun m =>
      let raw := String.mk ((text.data.drop m.1).take (m.2 - m.1))
      ⟨p.2, redact_pii raw p.2⟩))

/-- Python `round(q, 10)`. -/
def round10 (q : ℚ) : ℚ :=
  ((round (q * 10 ^ 10) : ℤ) : ℚ) / 10 ^ 10

structure COResult where
  passed : Bool
  threat_score : ℚ
  pii_found : List Finding
  system_prompt_leakage : Bool
  exfiltration_patterns : List String
  session_risk_score : ℚ
  final_threshold : ℚ
  deriving DecidableEq

/-- `check_output` (lines 185–262): validate the session risk, tighten the
threshold (`0.5 - session_risk_score * 0.2`), accumulate threat from the
detected PII (API keys 0.35, others 0.30), the system-prompt-leakage flag
(+0.5) and the deduplicated exfiltration patterns (+0.4 each), cap at 1,
and pass iff the threat is below the threshold.  `leak` and `exfil` are
the outputs of `_detect_system_prompt_leakage` and the four
exfiltration detectors. -/
def check_output (response_text system_prompt_hash : String)
    (session_risk_score : ℚ) (leak : Bool) (exfil : List String) :
    Except String COResult :=
  if session_risk_score < 0 || 1 < session_risk_score then
    .error "session_risk_score must be between 0.0 and 1.0"
  else
    let final_threshold := round10 (1/2 - session_risk_score * (2/10))
    let pii := detect_pii response_text
    let t1 := pii.foldl
      (fun acc f => acc + if f.type == "api_key" then 35/100 else 3/10) 0
    let t2 := t1 + (if leak then 1/2 else 0)
    let t3 := t2 + ((exfil.dedup.length : ℚ)) * (4/10)
    let threat := round10 (min t3 1)
    .ok ⟨decide (threat < final_threshold), threat, pii, leak, exfil,
      session_risk_score, final_threshold⟩

/-- The Scenario-D style response: an email address and a 12-digit grouped
number. -/
def sampleResponse : String := "a@b.co 1234 5678 9012"

/-! ### Concrete instances used to instantiate the theorems -/

/-- The all-zero digest function (a concrete digest instance). -/
def digestZero : DigestFun := fun _ _ => 0

def digestZeroS : String → DigestFun := fun _ => digestZero

/-- Empty adaptive-engine state. -/
def engine0 : EngineState := ⟨[], []⟩

def req0 : ChatRequest := ⟨"s1", "hello", "guest"⟩

/-- A request carrying an inter-agent marker. -/
def reqAgent : ChatRequest := ⟨"s1", "[AGENT] do the thing", "guest"⟩

def sess0 : SessionLite := ⟨0, 0⟩

/-- Benign results for every stage; each oracle field can be overridden. -/
def oPassAll : ChatOracles :=
  { l1 := .ok ⟨false, 0, "", "English", []⟩
    l2 := .ok ⟨false, 0, "", []⟩
    l3 := .ok ⟨false, 0, "", [], "h"⟩
    l4 := .ok ⟨0, 0, 0, false, [], []⟩
    honey := .ok ⟨false, ""⟩
    honeyLlm := .ok "hp"
    l7 := .ok ⟨true, 0, "", []⟩
    llm := .ok "llm response"
    l5 := .ok ⟨false, "none", "llm response"⟩ }

/-- All four pipeline stages pass but the honeypot evaluation raises. -/
def oHoneyErr : ChatOracles := { oPassAll with honey := .error () }

/-- All four pipeline stages pass but `validate_agent_interaction` raises. -/
def oL7Err : ChatOracles := { oPassAll with l7 := .error () }

/-- Layer 1 blocks with an internal diagnostic reason. -/
def oBlockL1 : ChatOracles :=
  { oPassAll with
    l1 := .ok ⟨true, 9/10, "Blocked by L1 Ingestion: override_pattern",
      "English", ["v1"]⟩ }

/-- Layer 2 blocks (Layer 1 passes). -/
def oBlockL2 : ChatOracles :=
  { oPassAll with l2 := .ok ⟨true, 9/10, "Blocked by L2 Scanner: ip_pattern", []⟩ }

/-- The fixed generic text returned to the caller when stage `k` blocks. -/
def genericMessage : ℕ → String
  | 1 => "Your message was blocked by the security layer."
  | 2 => "Your message was blocked by the security layer."
  | 3 => "Session memory integrity check failed. Message blocked."
  | 4 => "Multi-turn attack pattern detected. Message blocked."
  | _ => ""

/-- The audit/event action recorded when stage `k` does not pass. -/
def blockAction : ℕ → String
  | 3 => "QUARANTINED"
  | _ => "BLOCKED"

/-! ## Supporting lemmas -/

theorem sumSq_nil : sumSq [] = 0 := rfl

theorem sumSq_cons (a : ℝ) (l : List ℝ) : sumSq (a :: l) = a ^ 2 + sumSq l := by
  simp [sumSq]

theorem sumSq_map_div (l : List ℝ) (c : ℝ) :
    sumSq (l.map (fun x => x / c)) = sumSq l / c ^ 2 := by
  induction l with
  | nil => simp [sumSq]
  | cons a t ih => simp [sumSq_cons, ih, div_pow, add_div]

theorem rawComponent_ne_zero (d : DigestFun) (idx : ℕ) :
    rawComponent d idx ≠ 0 := by
  unfold rawComponent
  intro h
  have hb : ((2 * (d (idx / 32) (idx % 32) : ℕ) : ℕ) : ℝ) = ((255 : ℕ) : ℝ) := by
    push_cast
    linarith
  have hb' : 2 * (d (idx / 32) (idx % 32) : ℕ) = 255 := Nat.cast_injective hb
  omega

theorem sumSq_rawVec_pos (d : DigestFun) : 0 < sumSq (rawVec d) := by
  have hne : rawVec d ≠ [] := by simp [rawVec]
  apply List.sum_pos
  · intro x hx
    simp only [rawVec, List.map_map, List.mem_map] at hx
    obtain ⟨i, _, rfl⟩ := hx
    exact pow_two_pos_of_ne_zero (rawComponent_ne_zero d i)
  · simpa [sumSq, rawVec] using hne

theorem rawVec_length (d : DigestFun) : (rawVec d).length = 384 := by
  simp [rawVec]

theorem embed_turn_eq (d : DigestFun) :
    embed_turn d = (rawVec d).map (fun x => x / Real.sqrt (sumSq (rawVec d))) := by
  unfold embed_turn
  rw [if_pos]
  exact Real.sqrt_pos.mpr (sumSq_rawVec_pos d)

theorem embed_turn_length (d : DigestFun) : (embed_turn d).length = 384 := by
  rw [embed_turn_eq]
  simp [rawVec_length]

theorem embed_turn_sumSq (d : DigestFun) : sumSq (embed_turn d) = 1 := by
  rw [embed_turn_eq, sumSq_map_div,
    Real.sq_sqrt (le_of_lt (sumSq_rawVec_pos d))]
  exact div_self (ne_of_gt (sumSq_rawVec_pos d))

theorem round4_bounds (q : ℚ) :
    q - 1/20000 ≤ round4 q ∧ round4 q ≤ q + 1/20000 := by
  have h := abs_sub_round (q * 10000)
  rw [abs_le] at h
  unfold round4
  constructor <;> [linarith [h.1]; linarith [h.2]]

theorem round4_lt_threshold {x : ℚ} (hx : x ≤ 3/10) : round4 x < 45/100 := by
  have := (round4_bounds x).2
  linarith

theorem round4_not_lt_threshold {x : ℚ} (hx : 49/100 ≤ x) :
    ¬ round4 x < 45/100 := by
  have := (round4_bounds x).1
  linarith

theorem selectedSum_cases (ws : List ℚ) (sel : List Bool)
    (h : ∀ w ∈ ws, 2/5 ≤ w) :
    selectedSum ws sel = 0 ∨ 2/5 ≤ selectedSum ws sel := by
  induction ws generalizing sel with
  | nil => left; simp [selectedSum]
  | cons w t ih =>
    cases sel with
    | nil => left; simp [selectedSum]
    | cons b bs =>
      have hw := h w (by simp)
      have ht : ∀ x ∈ t, 2/5 ≤ x := fun x hx => h x (by simp [hx])
      have hrest := ih bs ht
      have hrest0 : 0 ≤ selectedSum t bs := by
        rcases hrest with h0 | hge
        · rw [h0]
        · linarith
      cases b with
      | false =>
        simpa [selectedSum] using hrest
      | true =>
        right
        have : selectedSum (w :: t) (true :: bs) = w + selectedSum t bs := by
          simp [selectedSum]
        rw [this]
        linarith

theorem method1_cases (sel : List Bool) :
    method1Score sel = 0 ∨ (2/5 ≤ method1Score sel ∧ method1Score sel ≤ 1) := by
  have hws : ∀ w ∈ INSTRUCTION_PATTERN_WEIGHTS, (2:ℚ)/5 ≤ w := by
    simp only [INSTRUCTION_PATTERN_WEIGHTS, List.forall_mem_cons,
      List.forall_mem_nil]
    norm_num
  rcases selectedSum_cases INSTRUCTION_PATTERN_WEIGHTS sel hws with h0 | hge
  · left
    simp [method1Score, h0]
  · right
    exact ⟨le_min hge (by norm_num), min_le_right _ _⟩

/-- Step lemma: adding one contribution that is zero or at least `3/10`. -/
theorem addSignal {a b : ℚ} (ha : a = 0 ∨ 3/10 ≤ a) (ha0 : 0 ≤ a)
    (hb : b = 0 ∨ 3/10 ≤ b) (hb0 : 0 ≤ b) :
    a + b = 0 ∨ 3/10 ≤ a + b := by
  rcases ha with rfl | hga
  · rcases hb with rfl | hgb
    · left; ring
    · right; linarith
  · right; linarith

/-- A signal contribution `if b then c else 0` with `3/10 ≤ c` is zero or
at least `3/10`, and is nonnegative. -/
theorem ifSignal {c : ℚ} (b : Prop) [Decidable b] (hc : 3/10 ≤ c) :
    ((if b then c else 0) = 0 ∨ 3/10 ≤ (if b then c else 0)) ∧
      0 ≤ (if b then c else 0) := by
  split
  · exact ⟨Or.inr hc, by linarith⟩
  · exact ⟨Or.inl rfl, le_rfl⟩

theorem method2_cases (zw : ℕ) (rlo invis html phrase : Bool) :
    method2Score zw rlo invis html phrase = 0 ∨
      (3/10 ≤ method2Score zw rlo invis html phrase ∧
        method2Score zw rlo invis html phrase ≤ 1) := by
  have hzw0 : (0:ℚ) ≤ min ((zw : ℚ) * (5/100)) (3/10) :=
    le_min (by positivity) (by norm_num)
  have h1 := ifSignal (c := (6:ℚ)/10 + min ((zw : ℚ) * (5/100)) (3/10)) (2 ≤ zw)
    (by linarith)
  have h2 := ifSignal (c := (5:ℚ)/10) (rlo = true) (by norm_num)
  have h3 := ifSignal (c := (3:ℚ)/10) ((invis && decide (zw = 0)) = true) (by norm_num)
  have h4 := ifSignal (c := (4:ℚ)/10) (html = true) (by norm_num)
  have h5 := ifSignal (c := (35:ℚ)/100) (phrase = true) (by norm_num)
  have hsum := addSignal (addSignal (addSignal (addSignal h1.1 h1.2 h2.1 h2.2)
    (by linarith [h1.2, h2.2]) h3.1 h3.2) (by linarith [h1.2, h2.2, h3.2])
    h4.1 h4.2) (by linarith [h1.2, h2.2, h3.2, h4.2]) h5.1 h5.2
  unfold method2Score
  rcases hsum with h0 | hge
  · left
    have : (0:ℚ) +
        (if 2 ≤ zw then (6:ℚ)/10 + min ((zw : ℚ) * (5/100)) (3/10) else 0) +
        (if rlo = true then (5:ℚ)/10 else 0) +
        (if (invis && decide (zw = 0)) = true then (3:ℚ)/10 else 0) +
        (if html = true then (4:ℚ)/10 else 0) +
        (if phrase = true then (35:ℚ)/100 else 0) = 0 := by
      rw [zero_add]
      exact h0
    simp only [this]
    simp
  · right
    constructor
    · refine le_min ?_ (by norm_num)
      rw [zero_add]
      exact hge
    · exact min_le_right _ _

theorem method3_cases (docValid matched : Bool) :
    method3Score docValid matched = 0 ∨ method3Score docValid matched = 1/2 := by
  unfold method3Score
  split
  · right; rfl
  · left; rfl

theorem scan_rag_key (m1 m2 m3 : ℚ)
    (h1 : m1 = 0 ∨ (2/5 ≤ m1 ∧ m1 ≤ 1))
    (h2 : m2 = 0 ∨ (3/10 ≤ m2 ∧ m2 ≤ 1))
    (h3 : m3 = 0 ∨ m3 = 1/2) :
    (scan_rag_chunk m1 m2 m3).passed =
      (decide ((scan_rag_chunk m1 m2 m3).methods_triggered = 0) ||
       (decide ((scan_rag_chunk m1 m2 m3).methods_triggered = 1) &&
        decide (max m1 (max m2 m3) < HIGH_CONFIDENCE_THRESHOLD))) := by
  rcases h1 with rfl | ⟨h1a, h1b⟩ <;> rcases h2 with rfl | ⟨h2a, h2b⟩ <;>
    rcases h3 with rfl | h3e
  -- no signal
  · simp only [scan_rag_chunk, HIGH_CONFIDENCE_THRESHOLD]
    norm_num [round4]
  -- m3 only
  · have hp : (0:ℚ) < m3 := by rw [h3e]; norm_num
    have e3 : decide ((0:ℚ) < m3) = true := by simp [hp]
    have htrig : (([(0:ℚ), 0, m3]).filter (fun s => decide (0 < s))).length = 1 := by
      simp [e3]
    have hmax : max (0:ℚ) (max 0 m3) = m3 := by
      rw [max_eq_right (le_of_lt hp), max_eq_right (le_of_lt hp)]
    simp only [scan_rag_chunk, HIGH_CONFIDENCE_THRESHOLD, htrig, hmax, reduceIte,
      Nat.reduceEqDiff]
    have hs : (1:ℚ)/2 ≤ m3 := by rw [h3e]
    rw [if_pos hs, min_eq_left (show m3 ≤ 1 by rw [h3e]; norm_num)]
    have hnp := round4_not_lt_threshold (x := m3) (by rw [h3e]; norm_num)
    rw [decide_eq_false hnp, decide_eq_false (not_lt.mpr hs)]
    simp
  -- m2 only
  · have hp : (0:ℚ) < m2 := by linarith
    have e2 : decide ((0:ℚ) < m2) = true := by simp [hp]
    have htrig : (([(0:ℚ), m2, 0]).filter (fun s => decide (0 < s))).length = 1 := by
      simp [e2]
    have hmax : max (0:ℚ) (max m2 0) = m2 := by
      rw [max_eq_left (le_of_lt hp), max_eq_right (le_of_lt hp)]
    simp only [scan_rag_chunk, HIGH_CONFIDENCE_THRESHOLD, htrig, hmax, reduceIte,
      Nat.reduceEqDiff]
    by_cases hs : (1:ℚ)/2 ≤ m2
    · rw [if_pos hs, min_eq_left h2b]
      have hnp := round4_not_lt_threshold (x := m2) (by linarith)
      rw [decide_eq_false hnp, decide_eq_false (not_lt.mpr hs)]
      simp
    · rw [if_neg hs, min_eq_left (show m2 * (6/10) ≤ 1 by nlinarith)]
      have hyt := round4_lt_threshold (x := m2 * (6/10))
        (by nlinarith [not_le.mp hs])
      rw [decide_eq_true hyt, decide_eq_true (not_le.mp hs)]
      simp
  -- m2 and m3
  · have hp2 : (0:ℚ) < m2 := by linarith
    have hp3 : (0:ℚ) < m3 := by rw [h3e]; norm_num
    have e2 : decide ((0:ℚ) < m2) = true := by simp [hp2]
    have e3 : decide ((0:ℚ) < m3) = true := by simp [hp3]
    have htrig : (([(0:ℚ), m2, m3]).filter (fun s => decide (0 < s))).length = 2 := by
      simp [e2, e3]
    simp only [scan_rag_chunk, HIGH_CONFIDENCE_THRESHOLD, htrig, reduceIte,
      Nat.reduceEqDiff]
    have hb : 49/100 ≤ ((0 + m2 + m3) * (7/10)) ⊓ 1 ⊓ 1 := by
      have hsum : (8:ℚ)/10 ≤ 0 + m2 + m3 := by rw [h3e]; linarith
      refine le_min (le_min (by linarith) (by norm_num)) (by norm_num)
    rw [decide_eq_false (round4_not_lt_threshold hb)]
    simp
  -- m1 only
  · have hp : (0:ℚ) < m1 := by linarith
    have e1 : decide ((0:ℚ) < m1) = true := by simp [hp]
    have htrig : (([m1, (0:ℚ), 0]).filter (fun s => decide (0 < s))).length = 1 := by
      simp [e1]
    have hmax : max m1 (max (0:ℚ) 0) = m1 := by
      rw [max_self, max_eq_left (le_of_lt hp)]
    simp only [scan_rag_chunk, HIGH_CONFIDENCE_THRESHOLD, htrig, hmax, reduceIte,
      Nat.reduceEqDiff]
    by_cases hs : (1:ℚ)/2 ≤ m1
    · rw [if_pos hs, min_eq_left h1b]
      have hnp := round4_not_lt_threshold (x := m1) (by linarith)
      rw [decide_eq_false hnp, decide_eq_false (not_lt.mpr hs)]
      simp
    · rw [if_neg hs, min_eq_left (show m1 * (6/10) ≤ 1 by nlinarith)]
      have hyt := round4_lt_threshold (x := m1 * (6/10))
        (by nlinarith [not_le.mp hs])
      rw [decide_eq_true hyt, decide_eq_true (not_le.mp hs)]
      simp
  -- m1 and m3
  · have hp1 : (0:ℚ) < m1 := by linarith
    have hp3 : (0:ℚ) < m3 := by rw [h3e]; norm_num
    have e1 : decide ((0:ℚ) < m1) = true := by simp [hp1]
    have e3 : decide ((0:ℚ) < m3) = true := by simp [hp3]
    have htrig : (([m1, (0:ℚ), m3]).filter (fun s => decide (0 < s))).length = 2 := by
      simp [e1, e3]
    simp only [scan_rag_chunk, HIGH_CONFIDENCE_THRESHOLD, htrig, reduceIte,
      Nat.reduceEqDiff]
    have hb : 49/100 ≤ ((m1 + 0 + m3) * (7/10)) ⊓ 1 ⊓ 1 := by
      have hsum : (9:ℚ)/10 ≤ m1 + 0 + m3 := by rw [h3e]; linarith
      refine le_min (le_min (by linarith) (by norm_num)) (by norm_num)
    rw [decide_eq_false (round4_not_lt_threshold hb)]
    simp
  -- m1 and m2
  · have hp1 : (0:ℚ) < m1 := by linarith
    have hp2 : (0:ℚ) < m2 := by linarith
    have e1 : decide ((0:ℚ) < m1) = true := by simp [hp1]
    have e2 : decide ((0:ℚ) < m2) = true := by simp [hp2]
    have htrig : (([m1, m2, (0:ℚ)]).filter (fun s => decide (0 < s))).length = 2 := by
      simp [e1, e2]
    simp only [scan_rag_chunk, HIGH_CONFIDENCE_THRESHOLD, htrig, reduceIte,
      Nat.reduceEqDiff]
    have hb : 49/100 ≤ ((m1 + m2 + 0) * (7/10)) ⊓ 1 ⊓ 1 := by
      have hsum : (7:ℚ)/10 ≤ m1 + m2 + 0 := by linarith
      refine le_min (le_min (by linarith) (by norm_num)) (by norm_num)
    rw [decide_eq_false (round4_not_lt_threshold hb)]
    simp
  -- all three
  · have hp1 : (0:ℚ) < m1 := by linarith
    have hp2 : (0:ℚ) < m2 := by linarith
    have hp3 : (0:ℚ) < m3 := by rw [h3e]; norm_num
    have e1 : decide ((0:ℚ) < m1) = true := by simp [hp1]
    have e2 : decide ((0:ℚ) < m2) = true := by simp [hp2]
    have e3 : decide ((0:ℚ) < m3) = true := by simp [hp3]
    have htrig : (([m1, m2, m3]).filter (fun s => decide (0 < s))).length = 3 := by
      simp [e1, e2, e3]
    simp only [scan_rag_chunk, HIGH_CONFIDENCE_THRESHOLD, htrig, reduceIte,
      Nat.reduceEqDiff]
    have hb : 49/100 ≤ ((m1 + m2 + m3) * (7/10)) ⊓ 1 ⊓ 1 := by
      have hsum : (12:ℚ)/10 ≤ m1 + m2 + m3 := by rw [h3e]; linarith
      refine le_min (le_min (by linarith) (by norm_num)) (by norm_num)
    rw [decide_eq_false (round4_not_lt_threshold hb)]
    simp

/-! ## Claim theorems -/

/-- **C3**: for every input text (every digest function), the embedding is
a 384-component vector of unit L2 norm, and equal inputs give equal
vectors (the function reads no session state). -/
theorem embed_turn_spec (d d' : DigestFun) (h : d = d') :
    (embed_turn d).length = 384 ∧ sumSq (embed_turn d) = 1 ∧
      embed_turn d = embed_turn d' := by
  refine ⟨embed_turn_length d, embed_turn_sumSq d, ?_⟩
  rw [h]

/-- **C3** witness: the theorem applied to the all-zero digest. -/
theorem embed_turn_spec_witness :
    (embed_turn digestZero).length = 384 ∧ sumSq (embed_turn digestZero) = 1 ∧
      embed_turn digestZero = embed_turn digestZero :=
  embed_turn_spec digestZero digestZero rfl

/-- **C10**: starting from risk 0, every EMA update with a new score in
[0,1] keeps the cumulative risk in [0,1]; consequently, for any risk the
pipeline can maintain (≤ 1), the honeypot engine's `cumulative_risk > 2.0`
branch never fires: its redirect decision reduces to the two
attack-count triggers. -/
theorem session_risk_bounded (old new : ℚ) (scores : List ℚ)
    (hr : Bool) (ac uv : ℕ) (risk : ℚ)
    (ho0 : 0 ≤ old) (ho1 : old ≤ 1) (hn0 : 0 ≤ new) (hn1 : new ≤ 1)
    (hs : ∀ x ∈ scores, 0 ≤ x ∧ x ≤ 1) (hrisk : risk ≤ 1) :
    (0 ≤ update_session_risk old new ∧ update_session_risk old new ≤ 1) ∧
    (0 ≤ riskAfter scores ∧ riskAfter scores ≤ 1) ∧
    (evaluate_honeypot hr ac uv risk).should_redirect =
      (hr && decide (2 ≤ ac) || decide (5 ≤ ac)) := by
  refine ⟨⟨?_, ?_⟩, ?_, ?_⟩
  · unfold update_session_risk; linarith
  · unfold update_session_risk; linarith
  · have key : ∀ (l : List ℚ) (acc : ℚ), 0 ≤ acc → acc ≤ 1 →
        (∀ x ∈ l, 0 ≤ x ∧ x ≤ 1) →
        0 ≤ l.foldl (fun a s => update_session_risk a s) acc ∧
          l.foldl (fun a s => update_session_risk a s) acc ≤ 1 := by
      intro l
      induction l with
      | nil => intro acc h0 h1 _; exact ⟨h0, h1⟩
      | cons x t ih =>
        intro acc h0 h1 hall
        have hx := hall x (by simp)
        refine ih _ ?_ ?_ (fun y hy => hall y (by simp [hy]))
        · unfold update_session_risk; linarith [hx.1, hx.2]
        · unfold update_session_risk; linarith [hx.1, hx.2]
    exact key scores 0 le_rfl (by norm_num) hs
  · have hlt : ¬ ((2 : ℚ) < risk) := by linarith
    simp [evaluate_honeypot, hlt]

/-- **C10** witness. -/
theorem session_risk_bounded_witness :
    (0 ≤ update_session_risk 0 1 ∧ update_session_risk 0 1 ≤ 1) ∧
    (0 ≤ riskAfter [1/2, 1] ∧ riskAfter [1/2, 1] ≤ 1) ∧
    (evaluate_honeypot true 1 1 1).should_redirect =
      (true && decide (2 ≤ 1) || decide (5 ≤ 1)) :=
  session_risk_bounded 0 1 [1/2, 1] true 1 1 1 le_rfl (by norm_num)
    (by norm_num) (by norm_num)
    (by
      intro x hx
      simp only [List.mem_cons, List.mem_singleton, List.not_mem_nil] at hx
      rcases hx with rfl | rfl | h
      · constructor <;> norm_num
      · constructor <;> norm_num
      · exact absurd h (by simp))
    (by norm_num)

/-- **C8**: corroboration rule of the RAG chunk scanner — over every
combination of detector outcomes, the chunk passes iff no method fires,
or exactly one fires with a score below the high-confidence threshold;
two or more signals, or one high-confidence signal, fail the chunk. -/
theorem scan_rag_chunk_corroboration (sel : List Bool) (zw : ℕ)
    (rlo invis html phrase docValid matched : Bool) :
    (scan_rag_chunk (method1Score sel) (method2Score zw rlo invis html phrase)
        (method3Score docValid matched)).passed =
      (decide ((scan_rag_chunk (method1Score sel)
          (method2Score zw rlo invis html phrase)
          (method3Score docValid matched)).methods_triggered = 0) ||
       (decide ((scan_rag_chunk (method1Score sel)
          (method2Score zw rlo invis html phrase)
          (method3Score docValid matched)).methods_triggered = 1) &&
        decide (max (method1Score sel) (max (method2Score zw rlo invis html phrase)
          (method3Score docValid matched)) < HIGH_CONFIDENCE_THRESHOLD))) :=
  scan_rag_key _ _ _ (method1_cases sel) (method2_cases zw rlo invis html phrase)
    (method3_cases docValid matched)


theorem round10_bounds (q : ℚ) :
    q - 1/(2 * 10^10) ≤ round10 q ∧ round10 q ≤ q + 1/(2 * 10^10) := by
  have h := abs_sub_round (q * 10^10)
  rw [abs_le] at h
  unfold round10
  constructor <;> [linarith [h.1]; linarith [h.2]]

theorem round10_exact {q : ℚ} {m : ℤ} (h : q * 10^10 = (m : ℚ)) :
    round10 q = q := by
  unfold round10
  rw [h, round_intCast]
  have : q = (m : ℚ) / 10^10 := by
    rw [← h]
    ring
  rw [this]

theorem detect_pii_sample : detect_pii sampleResponse =
    [⟨"aadhaar", "1234 **** 9012"⟩, ⟨"email", "a***@b.co"⟩] := by decide

/-- **C7**: for every session risk in [0,1] (with at most 9 decimal
digits, so that the source's `round(_, 10)` is exact), a response holding
an email and a 12-digit grouped number fails the output guard for every
possible outcome of the leakage/exfiltration detectors, both PII items
appear redacted in the result metadata, and the pass threshold equals
`0.5 - 0.2 * session_risk`. -/
theorem check_output_scenario (risk : ℚ) (leak : Bool) (exfil : List String)
    (h0 : 0 ≤ risk) (h1 : risk ≤ 1) (hd : (risk * 10^9).den = 1) :
    ∃ co, check_output sampleResponse "h" risk leak exfil = Except.ok co ∧
      co.passed = false ∧
      (⟨"email", "a***@b.co"⟩ : Finding) ∈ co.pii_found ∧
      (⟨"aadhaar", "1234 **** 9012"⟩ : Finding) ∈ co.pii_found ∧
      co.final_threshold = 1/2 - risk * (2/10) := by
  have hv : (decide (risk < 0) || decide (1 < risk)) = false := by
    simp [not_lt.mpr h0, not_lt.mpr h1]
  have hm : risk * 10^9 = ((risk * 10^9).num : ℚ) :=
    ((Rat.den_eq_one_iff _).mp hd).symm
  have hth : round10 (1/2 - risk * (2/10)) = 1/2 - risk * (2/10) := by
    apply round10_exact (m := 5 * 10^9 - 2 * (risk * 10^9).num)
    push_cast
    rw [← hm]
    ring
  have hfold : (detect_pii sampleResponse).foldl
      (fun acc f => acc + if f.type == "api_key" then 35/100 else 3/10) 0 =
      (3:ℚ)/5 := by
    rw [detect_pii_sample]
    have e1 : (("aadhaar" == "api_key") : Bool) = false := by decide
    have e2 : (("email" == "api_key") : Bool) = false := by decide
    simp only [List.foldl, e1, e2, if_neg Bool.false_ne_true]
    norm_num
  unfold check_output
  rw [hv]
  simp only [Bool.false_eq_true, if_false]
  refine ⟨_, rfl, ?_, ?_, ?_, ?_⟩
  · -- passed = false
    simp only [hfold, hth]
    apply decide_eq_false
    have hleak : (0:ℚ) ≤ (if leak = true then (1:ℚ)/2 else 0) := by
      split <;> norm_num
    have hexfil : (0:ℚ) ≤ ((exfil.dedup.length : ℚ)) * (4/10) := by positivity
    have hmin : (3:ℚ)/5 ≤
        min ((3:ℚ)/5 + (if leak = true then (1:ℚ)/2 else 0) +
          ((exfil.dedup.length : ℚ)) * (4/10)) 1 := by
      refine le_min (by linarith) (by norm_num)
    have hlow := (round10_bounds (min ((3:ℚ)/5 +
      (if leak = true then (1:ℚ)/2 else 0) +
      ((exfil.dedup.length : ℚ)) * (4/10)) 1)).1
    intro hcon
    have : 1/2 - risk * (2/10) ≤ 1/2 := by linarith
    linarith
  · rw [detect_pii_sample]; simp
  · rw [detect_pii_sample]; simp
  · exact hth


/-- **C7** witness: the theorem at `session_risk = 0`, no leakage, no
exfiltration findings. -/
theorem check_output_scenario_witness :
    ∃ co, check_output sampleResponse "h" 0 false [] = Except.ok co ∧
      co.passed = false ∧
      (⟨"email", "a***@b.co"⟩ : Finding) ∈ co.pii_found ∧
      (⟨"aadhaar", "1234 **** 9012"⟩ : Finding) ∈ co.pii_found ∧
      co.final_threshold = 1/2 - 0 * (2/10) :=
  check_output_scenario 0 false [] le_rfl (by norm_num) (by norm_num)

/-- **C2**: if stage `k` (1-4) is the first stage whose wrapped result
fails, the pipeline returns immediately with `blocked = true` and
`block_layer = k`, and the audit trail, event stream and layer summaries
contain exactly layers `1..k` - later stages never run. -/
theorem chat_short_circuit (req : ChatRequest) (sess : SessionLite)
    (o : ChatOracles) (k : ℕ) (hk1 : 1 ≤ k) (hk4 : k ≤ 4)
    (hpass : ∀ j, 1 ≤ j → j < k → (stageRes o j).passed = true)
    (hfail : (stageRes o k).passed = false) :
    ∃ out, chat req sess o = Except.ok out ∧
      out.resp.blocked = true ∧
      out.resp.block_layer = some k ∧
      out.audit.map AuditEntry.layer = List.range' 1 k ∧
      out.events.map EventEntry.layer = List.range' 1 k ∧
      out.resp.layers.map LayerSummary.layer = List.range' 1 k := by
  interval_cases k
  · have h1 : (wrapL1 o.l1).passed = false := by simpa [stageRes] using hfail
    simp only [chat, h1, Bool.not_false, if_true]
    exact ⟨_, rfl, rfl, rfl, by simp [List.range'], by simp [List.range'],
      by simp [List.range']⟩
  · have h1 : (wrapL1 o.l1).passed = true := by
      simpa [stageRes] using hpass 1 (by norm_num) (by norm_num)
    have h2 : (wrapL2 o.l2).passed = false := by simpa [stageRes] using hfail
    simp only [chat, h1, h2, Bool.not_true, Bool.not_false, if_true,
      Bool.false_eq_true, if_false]
    exact ⟨_, rfl, rfl, rfl, by simp [List.range'], by simp [List.range'],
      by simp [List.range']⟩
  · have h1 : (wrapL1 o.l1).passed = true := by
      simpa [stageRes] using hpass 1 (by norm_num) (by norm_num)
    have h2 : (wrapL2 o.l2).passed = true := by
      simpa [stageRes] using hpass 2 (by norm_num) (by norm_num)
    have h3 : (wrapL3 o.l3).passed = false := by simpa [stageRes] using hfail
    simp only [chat, h1, h2, h3, Bool.not_true, Bool.not_false, if_true,
      Bool.false_eq_true, if_false]
    exact ⟨_, rfl, rfl, rfl, by simp [List.range'], by simp [List.range'],
      by simp [List.range']⟩
  · have h1 : (wrapL1 o.l1).passed = true := by
      simpa [stageRes] using hpass 1 (by norm_num) (by norm_num)
    have h2 : (wrapL2 o.l2).passed = true := by
      simpa [stageRes] using hpass 2 (by norm_num) (by norm_num)
    have h3 : (wrapL3 o.l3).passed = true := by
      simpa [stageRes] using hpass 3 (by norm_num) (by norm_num)
    have h4 : (wrapL4 o.l4).passed = false := by simpa [stageRes] using hfail
    simp only [chat, h1, h2, h3, h4, Bool.not_true, Bool.not_false, if_true,
      Bool.false_eq_true, if_false]
    exact ⟨_, rfl, rfl, rfl, by simp [List.range'], by simp [List.range'],
      by simp [List.range']⟩

/-- **C2** witness: Layer 2 blocks after Layer 1 passes. -/
theorem chat_short_circuit_witness :
    ∃ out, chat req0 sess0 oBlockL2 = Except.ok out ∧
      out.resp.blocked = true ∧
      out.resp.block_layer = some 2 ∧
      out.audit.map AuditEntry.layer = List.range' 1 2 ∧
      out.events.map EventEntry.layer = List.range' 1 2 ∧
      out.resp.layers.map LayerSummary.layer = List.range' 1 2 :=
  chat_short_circuit req0 sess0 oBlockL2 2 (by norm_num) (by norm_num)
    (fun j hj1 hj2 => by
      have hj : j = 1 := by omega
      subst hj
      decide)
    (by decide)

/-- **C1** (amended): the fail-secure conversion holds at the five wrapped
stages — an exception becomes `passed = false, threat_score = 1.0` — but
not at the honeypot decision or the inter-agent validator, whose
exceptions propagate out of `chat` uncaught. -/
theorem chat_fail_secure_stages :
    ((wrapL1 (Except.error ())).passed = false ∧
      (wrapL1 (Except.error ())).threat_score = 1) ∧
    ((wrapL2 (Except.error ())).passed = false ∧
      (wrapL2 (Except.error ())).threat_score = 1) ∧
    ((wrapL3 (Except.error ())).passed = false ∧
      (wrapL3 (Except.error ())).threat_score = 1) ∧
    ((wrapL4 (Except.error ())).passed = false ∧
      (wrapL4 (Except.error ())).threat_score = 1) ∧
    ((wrapL5 (Except.error ())).passed = false ∧
      (wrapL5 (Except.error ())).threat_score = 1) ∧
    chat req0 sess0 oHoneyErr = Except.error () ∧
    chat reqAgent sess0 oL7Err = Except.error () := by
  refine ⟨⟨rfl, rfl⟩, ⟨rfl, rfl⟩, ⟨rfl, rfl⟩, ⟨rfl, rfl⟩, ⟨rfl, rfl⟩, ?_, ?_⟩
  · norm_num [chat, oHoneyErr, oPassAll, req0, sess0, wrapL1, wrapL2, wrapL3,
      wrapL4, l4Velocity]
  · have hca : ∀ a e s, chatAgent reqAgent sess0 oL7Err a e s =
        Except.error () := fun a e s => rfl
    norm_num [chat, oL7Err, oPassAll, reqAgent, sess0,
      wrapL1, wrapL2, wrapL3, wrapL4, l4Velocity]
    exact hca _ _ _

/-- **C1** counterexample: with Stages 1–4 passing, an exception raised
inside the honeypot decision (resp. the inter-agent validator) escapes
`chat` instead of being converted to a maximum-threat stage result. -/
theorem chat_honeypot_exception_escapes :
    chat req0 sess0 oHoneyErr = Except.error () ∧
    chat reqAgent sess0 oL7Err = Except.error () := by
  constructor
  · norm_num [chat, oHoneyErr, oPassAll, req0, sess0, wrapL1, wrapL2, wrapL3,
      wrapL4, l4Velocity]
  · have hca : ∀ a e s, chatAgent reqAgent sess0 oL7Err a e s =
        Except.error () := fun a e s => rfl
    norm_num [chat, oL7Err, oPassAll, reqAgent, sess0,
      wrapL1, wrapL2, wrapL3, wrapL4, l4Velocity]
    exact hca _ _ _

/-- **C9** (amended): when stage `k` (1–4) blocks, the response *text* is
a fixed generic message determined by `k` alone, and the internal reason,
score and OWASP tag are recorded in the audit trail and event stream —
but the returned `ChatResponse` additionally carries the internal reason
in `block_reason` and the per-layer threat scores in `layers` (only the
OWASP tag stays out of the response, which has no such field). -/
theorem chat_blocked_generic_text (req : ChatRequest) (sess : SessionLite)
    (o : ChatOracles) (k : ℕ) (hk1 : 1 ≤ k) (hk4 : k ≤ 4)
    (hpass : ∀ j, 1 ≤ j → j < k → (stageRes o j).passed = true)
    (hfail : (stageRes o k).passed = false) :
    ∃ out, chat req sess o = Except.ok out ∧
      out.resp.response = genericMessage k ∧
      out.resp.block_reason = some (stageRes o k).reason ∧
      out.resp.layers.map LayerSummary.threat_score =
        (List.range' 1 k).map (fun j => (stageRes o j).threat_score) ∧
      out.audit.getLast? = some ⟨k, blockAction k, (stageRes o k).reason,
        (stageRes o k).threat_score⟩ ∧
      out.events.getLast? = some ⟨k, blockAction k,
        (stageRes o k).threat_score, (stageRes o k).reason,
        (stageRes o k).owasp_tag, sess.turn_count + 1⟩ := by
  interval_cases k
  · have h1 : (wrapL1 o.l1).passed = false := by simpa [stageRes] using hfail
    simp only [chat, h1, Bool.not_false, if_true]
    exact ⟨_, rfl, rfl, rfl, by simp [List.range', stageRes],
      by simp [blockAction, stageRes], by simp [blockAction, stageRes]⟩
  · have h1 : (wrapL1 o.l1).passed = true := by
      simpa [stageRes] using hpass 1 (by norm_num) (by norm_num)
    have h2 : (wrapL2 o.l2).passed = false := by simpa [stageRes] using hfail
    simp only [chat, h1, h2, Bool.not_true, Bool.not_false, if_true,
      Bool.false_eq_true, if_false]
    exact ⟨_, rfl, rfl, rfl, by simp [List.range', stageRes],
      by simp [blockAction, stageRes], by simp [blockAction, stageRes]⟩
  · have h1 : (wrapL1 o.l1).passed = true := by
      simpa [stageRes] using hpass 1 (by norm_num) (by norm_num)
    have h2 : (wrapL2 o.l2).passed = true := by
      simpa [stageRes] using hpass 2 (by norm_num) (by norm_num)
    have h3 : (wrapL3 o.l3).passed = false := by simpa [stageRes] using hfail
    simp only [chat, h1, h2, h3, Bool.not_true, Bool.not_false, if_true,
      Bool.false_eq_true, if_false]
    exact ⟨_, rfl, rfl, rfl, by simp [List.range', stageRes],
      by simp [blockAction, stageRes], by simp [blockAction, stageRes]⟩
  · have h1 : (wrapL1 o.l1).passed = true := by
      simpa [stageRes] using hpass 1 (by norm_num) (by norm_num)
    have h2 : (wrapL2 o.l2).passed = true := by
      simpa [stageRes] using hpass 2 (by norm_num) (by norm_num)
    have h3 : (wrapL3 o.l3).passed = true := by
      simpa [stageRes] using hpass 3 (by norm_num) (by norm_num)
    have h4 : (wrapL4 o.l4).passed = false := by simpa [stageRes] using hfail
    simp only [chat, h1, h2, h3, h4, Bool.not_true, Bool.not_false, if_true,
      Bool.false_eq_true, if_false]
    exact ⟨_, rfl, rfl, rfl, by simp [List.range', stageRes],
      by simp [blockAction, stageRes], by simp [blockAction, stageRes]⟩

/-- **C9** counterexample: when Layer 1 blocks, the value returned to the
caller carries the internal diagnostic reason in its `block_reason`
field — it is not confined to the audit trail and event stream. -/
theorem chat_block_reason_in_response :
    ∃ out, chat req0 sess0 oBlockL1 = Except.ok out ∧
      out.resp.block_reason =
        some "Blocked by L1 Ingestion: override_pattern" := by
  have h1 : (wrapL1 oBlockL1.l1).passed = false := by decide
  simp only [chat, h1, Bool.not_false, if_true]
  exact ⟨_, rfl, rfl⟩

/-- **C9** witness: the amended theorem at the Layer-1 block instance. -/
theorem chat_blocked_generic_text_witness :
    ∃ out, chat req0 sess0 oBlockL1 = Except.ok out ∧
      out.resp.response = genericMessage 1 ∧
      out.resp.block_reason = some (stageRes oBlockL1 1).reason ∧
      out.resp.layers.map LayerSummary.threat_score =
        (List.range' 1 1).map (fun j => (stageRes oBlockL1 j).threat_score) ∧
      out.audit.getLast? = some ⟨1, blockAction 1, (stageRes oBlockL1 1).reason,
        (stageRes oBlockL1 1).threat_score⟩ ∧
      out.events.getLast? = some ⟨1, blockAction 1,
        (stageRes oBlockL1 1).threat_score, (stageRes oBlockL1 1).reason,
        (stageRes oBlockL1 1).owasp_tag, sess0.turn_count + 1⟩ :=
  chat_blocked_generic_text req0 sess0 oBlockL1 1 (by norm_num) (by norm_num)
    (fun j hj1 hj2 => absurd (lt_of_le_of_lt hj1 hj2) (lt_irrefl 1))
    (by decide)

theorem validate_inputs_some (text ty : String) (layer : ℤ) (sid : String)
    (hbad : pyBlank text = true ∨ pyBlank ty = true ∨ layer < 1 ∨ 9 < layer ∨
      pyBlank sid = true) :
    ∃ msg, validate_inputs text ty layer sid = some msg := by
  unfold validate_inputs
  split_ifs with a b c d
  · exact ⟨_, rfl⟩
  · exact ⟨_, rfl⟩
  · exact ⟨_, rfl⟩
  · exact ⟨_, rfl⟩
  · rcases hbad with h | h | h | h | h <;> simp_all

/-- **C6**: malformed `record_attack` input — blank text, blank attack
type, layer outside [1,9], or blank session id — raises the validation
error synchronously; no state is produced, so the pending patterns are
unchanged. -/
theorem record_attack_event_validation (text ty : String) (layer : ℤ)
    (sid : String) (s : EngineState)
    (hbad : pyBlank text = true ∨ pyBlank ty = true ∨ layer < 1 ∨ 9 < layer ∨
      pyBlank sid = true) :
    ∃ msg, record_attack_event text ty layer sid s = Except.error msg := by
  obtain ⟨m, hm⟩ := validate_inputs_some text ty layer sid hbad
  exact ⟨m, by simp [record_attack_event, hm]⟩

/-- **C6** witness: empty text, and layer 10. -/
theorem record_attack_event_validation_witness :
    (∃ msg, record_attack_event "" "prompt_injection" 1 "sess-1" engine0 =
      Except.error msg) ∧
    (∃ msg, record_attack_event "attack text" "prompt_injection" 10 "sess-1"
      engine0 = Except.error msg) :=
  ⟨record_attack_event_validation "" "prompt_injection" 1 "sess-1" engine0
      (Or.inl (by decide)),
    record_attack_event_validation "attack text" "prompt_injection" 10 "sess-1"
      engine0 (Or.inr (Or.inr (Or.inr (Or.inl (by norm_num)))))⟩

theorem sweepGo_all_promoted (D : String → DigestFun) :
    ∀ (l : List (String × PendingEntry)) (seeds : List AttackSeed),
      ∀ p ∈ (sweepGo D l seeds).1, 3 ≤ p.2.count → p.2.promoted = true := by
  intro l
  induction l with
  | nil => intro seeds p hp; simp [sweepGo] at hp
  | cons he t ih =>
    intro seeds p hp h3
    obtain ⟨k, e⟩ := he
    by_cases hpr : e.promoted = true
    · simp only [sweepGo, hpr, if_true] at hp
      rcases List.mem_cons.mp hp with rfl | hmem
      · exact hpr
      · exact ih seeds p hmem h3
    · simp only [Bool.not_eq_true] at hpr
      by_cases h3c : 3 ≤ e.count
      · simp only [sweepGo, hpr, Bool.false_eq_true, if_false, h3c, if_true] at hp
        rcases List.mem_cons.mp hp with rfl | hmem
        · rfl
        · exact ih _ p hmem h3
      · simp only [sweepGo, hpr, Bool.false_eq_true, if_false, h3c] at hp
        rcases List.mem_cons.mp hp with rfl | hmem
        · exact absurd h3 h3c
        · exact ih seeds p hmem h3

theorem sweepGo_stable (D : String → DigestFun) :
    ∀ (l : List (String × PendingEntry)) (seeds : List AttackSeed),
      (∀ p ∈ l, 3 ≤ p.2.count → p.2.promoted = true) →
      (sweepGo D l seeds).1 = l ∧ (sweepGo D l seeds).2.1 = seeds ∧
        (sweepGo D l seeds).2.2.1 = 0 := by
  intro l
  induction l with
  | nil => intro seeds _; simp [sweepGo]
  | cons he t ih =>
    intro seeds hall
    obtain ⟨k, e⟩ := he
    have hrest : ∀ p ∈ t, 3 ≤ p.2.count → p.2.promoted = true :=
      fun p hp => hall p (by simp [hp])
    by_cases hpr : e.promoted = true
    · have := ih seeds hrest
      simp only [sweepGo, hpr, if_true]
      exact ⟨by rw [this.1], this.2.1, this.2.2⟩
    · simp only [Bool.not_eq_true] at hpr
      have h3c : ¬ 3 ≤ e.count := by
        intro hc
        exact absurd (hall (k, e) (by simp) hc) (by simp [hpr])
      have := ih seeds hrest
      simp only [sweepGo, hpr, Bool.false_eq_true, if_false, h3c]
      exact ⟨by rw [this.1], this.2.1, this.2.2⟩

theorem sweepGo_nodup (D : String → DigestFun) :
    ∀ (l : List (String × PendingEntry)) (seeds : List AttackSeed),
      ((seeds.map AttackSeed.text).Nodup) →
      (((sweepGo D l seeds).2.1.map AttackSeed.text).Nodup) := by
  intro l
  induction l with
  | nil => intro seeds h; simpa [sweepGo] using h
  | cons he t ih =>
    intro seeds h
    obtain ⟨k, e⟩ := he
    by_cases hpr : e.promoted = true
    · simpa only [sweepGo, hpr, if_true] using ih seeds h
    · simp only [Bool.not_eq_true] at hpr
      by_cases h3c : 3 ≤ e.count
      · simp only [sweepGo, hpr, Bool.false_eq_true, if_false, h3c, if_true]
        by_cases hmem : e.examples.headD "" ∈ seeds.map AttackSeed.text
        · simpa only [hmem, if_true] using ih seeds h
        · simp only [hmem, if_false]
          apply ih
          simp only [List.map_append, List.map_cons, List.map_nil]
          rw [List.nodup_append]
          exact ⟨h, List.nodup_singleton _, by simpa using hmem⟩
      · simpa only [sweepGo, hpr, Bool.false_eq_true, if_false, h3c] using
          ih seeds h

theorem runOp_record_seeds (D : String → DigestFun) (s : EngineState)
    (text ty : String) (layer : ℤ) (sid : String) :
    (runOp D s (EngineOp.record text ty layer sid)).seeds = s.seeds := by
  simp only [runOp, record_attack_event]
  rcases hv : validate_inputs text ty layer sid with _ | m
  · rcases hl : lookupPending s.pending text with _ | e <;> simp
  · simp

/-- **C5**: a second sweep with no intervening records promotes zero
additional patterns and leaves the state unchanged; and across any
sequence of record/sweep operations the durable seed store never holds
two entries with the same text. -/
theorem process_pending_patterns_idempotent (D : String → DigestFun)
    (s : EngineState) (ops : List EngineOp)
    (hnd : (seedTexts s).Nodup) :
    (process_pending_patterns D (process_pending_patterns D s).2).1.1 = 0 ∧
    (process_pending_patterns D (process_pending_patterns D s).2).2 =
      (process_pending_patterns D s).2 ∧
    (seedTexts (runOps D ops s)).Nodup := by
  refine ⟨?_, ?_, ?_⟩
  · have hall := sweepGo_all_promoted D s.pending s.seeds
    have := sweepGo_stable D (sweepGo D s.pending s.seeds).1
      (sweepGo D s.pending s.seeds).2.1 hall
    simp only [process_pending_patterns]
    exact this.2.2
  · have hall := sweepGo_all_promoted D s.pending s.seeds
    have := sweepGo_stable D (sweepGo D s.pending s.seeds).1
      (sweepGo D s.pending s.seeds).2.1 hall
    simp only [process_pending_patterns]
    rw [this.1, this.2.1]
  · induction ops generalizing s with
    | nil => simpa [runOps] using hnd
    | cons op t ih =>
      have hstep : (seedTexts (runOp D s op)).Nodup := by
        cases op with
        | record text ty layer sid =>
          rw [seedTexts, runOp_record_seeds]
          exact hnd
        | sweep =>
          simp only [runOp, process_pending_patterns, seedTexts]
          exact sweepGo_nodup D s.pending s.seeds hnd
      simpa [runOps] using ih (runOp D s op) hstep

/-- **C5** witness: empty state, one record of the same text three times
then two sweeps. -/
theorem process_pending_patterns_idempotent_witness :
    (process_pending_patterns digestZeroS
      (process_pending_patterns digestZeroS engine0).2).1.1 = 0 ∧
    (process_pending_patterns digestZeroS
      (process_pending_patterns digestZeroS engine0).2).2 =
      (process_pending_patterns digestZeroS engine0).2 ∧
    (seedTexts (runOps digestZeroS
      [EngineOp.record "evil" "inj" 1 "a", EngineOp.record "evil" "inj" 1 "b",
       EngineOp.record "evil" "inj" 1 "c", EngineOp.sweep, EngineOp.sweep]
      engine0)).Nodup :=
  process_pending_patterns_idempotent digestZeroS engine0 _ (by simp [seedTexts, engine0])

theorem lookup_none_of_keyfree (l : List (String × PendingEntry)) (k : String)
    (hkf : ∀ p ∈ l, (p.1 == k) = false) : lookupPending l k = none := by
  have : l.find? (fun p => p.1 == k) = none :=
    List.find?_eq_none.mpr (fun p hp => by simp [hkf p hp])
  simp [lookupPending, this]

theorem keyfree_of_lookup_none (l : List (String × PendingEntry)) (k : String)
    (h : lookupPending l k = none) : ∀ p ∈ l, (p.1 == k) = false := by
  intro p hp
  have hf : l.find? (fun p => p.1 == k) = none := by
    simpa [lookupPending] using h
  have := List.find?_eq_none.mp hf p hp
  simpa using this

theorem lookupPending_append_right (l : List (String × PendingEntry))
    (k : String) (e : PendingEntry)
    (hkf : ∀ p ∈ l, (p.1 == k) = false) :
    lookupPending (l ++ [(k, e)]) k = some e := by
  induction l with
  | nil => simp [lookupPending]
  | cons p t ih =>
    have hp := hkf p (by simp)
    have hrec := ih (fun q hq => hkf q (by simp [hq]))
    simp only [lookupPending] at hrec ⊢
    rw [List.cons_append, List.find?_cons_of_neg _ (by simp [hp])]
    exact hrec

theorem replace_append (l : List (String × PendingEntry)) (k : String)
    (e e' : PendingEntry) (hkf : ∀ p ∈ l, (p.1 == k) = false) :
    (l ++ [(k, e)]).map (fun p => if p.1 == k then (p.1, e') else p) =
      l ++ [(k, e')] := by
  induction l with
  | nil => simp
  | cons p t ih =>
    have hp := hkf p (by simp)
    simp only [List.cons_append, List.map_cons]
    rw [if_neg (by simp [hp])]
    rw [ih (fun q hq => hkf q (by simp [hq]))]

theorem sweepGo_keys (D : String → DigestFun) (l : List (String × PendingEntry)) :
    ∀ seeds, (sweepGo D l seeds).1.map Prod.fst = l.map Prod.fst := by
  induction l with
  | nil => intro seeds; simp [sweepGo]
  | cons he t ih =>
    intro seeds
    obtain ⟨k, e⟩ := he
    by_cases hpr : e.promoted = true
    · simp [sweepGo, hpr, ih]
    · simp only [Bool.not_eq_true] at hpr
      by_cases h3 : 3 ≤ e.count
      · simp [sweepGo, hpr, h3, ih]
      · simp [sweepGo, hpr, h3, ih]

theorem sweepGo_keyfree (D : String → DigestFun)
    (l : List (String × PendingEntry)) (k : String) :
    ∀ seeds, (∀ p ∈ l, (p.1 == k) = false) →
      ∀ p ∈ (sweepGo D l seeds).1, (p.1 == k) = false := by
  induction l with
  | nil => intro seeds _ p hp; simp [sweepGo] at hp
  | cons he t ih =>
    intro seeds hkf p hp
    obtain ⟨q, e⟩ := he
    have hq := hkf (q, e) (by simp)
    have ht : ∀ r ∈ t, (r.1 == k) = false := fun r hr => hkf r (by simp [hr])
    by_cases hpr : e.promoted = true
    · simp only [sweepGo, hpr, if_true] at hp
      rcases List.mem_cons.mp hp with rfl | hmem
      · exact hq
      · exact ih seeds ht p hmem
    · simp only [Bool.not_eq_true] at hpr
      by_cases h3 : 3 ≤ e.count
      · simp only [sweepGo, hpr, Bool.false_eq_true, if_false, h3, if_true] at hp
        rcases List.mem_cons.mp hp with rfl | hmem
        · exact hq
        · exact ih _ ht p hmem
      · simp only [sweepGo, hpr, Bool.false_eq_true, if_false, h3] at hp
        rcases List.mem_cons.mp hp with rfl | hmem
        · exact hq
        · exact ih seeds ht p hmem

theorem sweepGo_heads (D : String → DigestFun)
    (l : List (String × PendingEntry)) (x : String) :
    ∀ seeds, (∀ p ∈ l, p.2.examples.headD "" ≠ x) →
      ∀ p ∈ (sweepGo D l seeds).1, p.2.examples.headD "" ≠ x := by
  induction l with
  | nil => intro seeds _ p hp; simp [sweepGo] at hp
  | cons he t ih =>
    intro seeds hh p hp
    obtain ⟨q, e⟩ := he
    have hq := hh (q, e) (by simp)
    have ht : ∀ r ∈ t, r.2.examples.headD "" ≠ x := fun r hr => hh r (by simp [hr])
    by_cases hpr : e.promoted = true
    · simp only [sweepGo, hpr, if_true] at hp
      rcases List.mem_cons.mp hp with rfl | hmem
      · exact hq
      · exact ih seeds ht p hmem
    · simp only [Bool.not_eq_true] at hpr
      by_cases h3 : 3 ≤ e.count
      · simp only [sweepGo, hpr, Bool.false_eq_true, if_false, h3, if_true] at hp
        rcases List.mem_cons.mp hp with rfl | hmem
        · exact hq
        · exact ih _ ht p hmem
      · simp only [sweepGo, hpr, Bool.false_eq_true, if_false, h3] at hp
        rcases List.mem_cons.mp hp with rfl | hmem
        · exact hq
        · exact ih seeds ht p hmem

theorem sweepGo_no_new_text (D : String → DigestFun)
    (l : List (String × PendingEntry)) (x : String) :
    ∀ seeds, (∀ p ∈ l, p.2.examples.headD "" ≠ x) →
      x ∉ seeds.map AttackSeed.text →
      x ∉ (sweepGo D l seeds).2.1.map AttackSeed.text := by
  induction l with
  | nil => intro seeds _ hs; simpa [sweepGo] using hs
  | cons he t ih =>
    intro seeds hh hs
    obtain ⟨q, e⟩ := he
    have hq := hh (q, e) (by simp)
    have ht : ∀ r ∈ t, r.2.examples.headD "" ≠ x := fun r hr => hh r (by simp [hr])
    by_cases hpr : e.promoted = true
    · simp only [sweepGo, hpr, if_true]
      exact ih seeds ht hs
    · simp only [Bool.not_eq_true] at hpr
      by_cases h3 : 3 ≤ e.count
      · simp only [sweepGo, hpr, Bool.false_eq_true, if_false, h3, if_true]
        apply ih _ ht
        by_cases hmem : e.examples.headD "" ∈ seeds.map AttackSeed.text
        · rw [if_pos hmem]
          exact hs
        · rw [if_neg hmem]
          simp only [List.map_append, List.map_cons, List.map_nil,
            List.mem_append, List.mem_singleton]
          rintro (hx | hx)
          · exact hs hx
          · exact hq hx.symm
      · simp only [sweepGo, hpr, Bool.false_eq_true, if_false, h3]
        exact ih seeds ht hs

theorem sweepGo_append (D : String → DigestFun)
    (l1 l2 : List (String × PendingEntry)) :
    ∀ seeds, sweepGo D (l1 ++ l2) seeds =
      ((sweepGo D l1 seeds).1 ++ (sweepGo D l2 (sweepGo D l1 seeds).2.1).1,
       (sweepGo D l2 (sweepGo D l1 seeds).2.1).2.1,
       (sweepGo D l1 seeds).2.2.1 + (sweepGo D l2 (sweepGo D l1 seeds).2.1).2.2.1,
       (sweepGo D l1 seeds).2.2.2 +
         (sweepGo D l2 (sweepGo D l1 seeds).2.1).2.2.2) := by
  induction l1 with
  | nil => intro seeds; simp [sweepGo]
  | cons he t ih =>
    intro seeds
    obtain ⟨k, e⟩ := he
    by_cases hpr : e.promoted = true
    · simp only [List.cons_append, sweepGo, hpr, if_true, ih]
      simp [Prod.ext_iff, ih]
    · simp only [Bool.not_eq_true] at hpr
      by_cases h3 : 3 ≤ e.count
      · simp only [List.cons_append, sweepGo, hpr, Bool.false_eq_true, if_false,
          h3, if_true, ih]
        simp [Prod.ext_iff, ih]
        ring
      · simp only [List.cons_append, sweepGo, hpr, Bool.false_eq_true, if_false,
          h3, ih]
        simp [Prod.ext_iff, ih]
        ring

theorem sweepGo_singleton_pending (D : String → DigestFun) (k : String)
    (e : PendingEntry) (seeds : List AttackSeed) (hpr : e.promoted = false)
    (h3 : ¬ 3 ≤ e.count) :
    sweepGo D [(k, e)] seeds = ([(k, e)], seeds, 0, 1) := by
  simp [sweepGo, hpr, h3]

theorem sweepGo_singleton_promote (D : String → DigestFun) (k : String)
    (e : PendingEntry) (seeds : List AttackSeed) (hpr : e.promoted = false)
    (h3 : 3 ≤ e.count)
    (hmem : e.examples.headD "" ∉ seeds.map AttackSeed.text) :
    sweepGo D [(k, e)] seeds = ([(k, { e with promoted := true })],
      seeds ++ [⟨e.examples.headD "",
        hash_text_to_384 D (e.examples.headD ""), e.attack_type⟩], 1, 0) := by
  simp only [sweepGo, hpr, Bool.false_eq_true, if_false, h3, if_true,
    if_neg hmem]

theorem bumpEntry_count (e : PendingEntry) (text : String) (layer : ℤ)
    (sid : String) : (bumpEntry e text layer sid).count = e.count + 1 := rfl

theorem bumpEntry_promoted (e : PendingEntry) (text : String) (layer : ℤ)
    (sid : String) : (bumpEntry e text layer sid).promoted = e.promoted := rfl

theorem bumpEntry_attack_type (e : PendingEntry) (text : String) (layer : ℤ)
    (sid : String) : (bumpEntry e text layer sid).attack_type =
      e.attack_type := rfl

theorem bumpEntry_examples_mem (e : PendingEntry) (text : String) (layer : ℤ)
    (sid : String) (h : text ∈ e.examples) :
    (bumpEntry e text layer sid).examples = e.examples := by
  simp [bumpEntry, h]

/-- **C4**: for any attack text new to the engine, two recordings of the
identical text followed by a sweep promote nothing for it (count 2,
unpromoted, not in the store); a third recording makes the next sweep
promote it exactly once — one `promoted` tick, exactly one store entry
with that text, carrying a 384-float embedding and the attack type of the
first recording — and marks the pattern promoted. -/
theorem record_three_promotes_once (D : String → DigestFun) (s : EngineState)
    (text ty : String) (layer : ℤ) (sid1 sid2 sid3 : String)
    (hv1 : validate_inputs text ty layer sid1 = none)
    (hv2 : validate_inputs text ty layer sid2 = none)
    (hv3 : validate_inputs text ty layer sid3 = none)
    (hfresh : lookupPending s.pending text = none)
    (hseed : text ∉ seedTexts s)
    (hheads : ∀ p ∈ s.pending, p.2.examples.headD "" ≠ text) :
    ∃ s1 s2, record_attack_event text ty layer sid1 s = Except.ok s1 ∧
      record_attack_event text ty layer sid2 s1 = Except.ok s2 ∧
      text ∉ seedTexts (process_pending_patterns D s2).2 ∧
      (∃ e, lookupPending (process_pending_patterns D s2).2.pending text =
        some e ∧ e.count = 2 ∧ e.promoted = false) ∧
      (∃ s3, record_attack_event text ty layer sid3
          (process_pending_patterns D s2).2 = Except.ok s3 ∧
        (process_pending_patterns D s3).1.1 = 1 ∧
        (seedTexts (process_pending_patterns D s3).2).count text = 1 ∧
        (∃ sd, sd ∈ (process_pending_patterns D s3).2.seeds ∧ sd.text = text ∧
          sd.attack_type = ty ∧ sd.embedding.length = 384) ∧
        (∃ e, lookupPending (process_pending_patterns D s3).2.pending text =
          some e ∧ e.promoted = true)) := by
  have hkf : ∀ p ∈ s.pending, (p.1 == text) = false :=
    keyfree_of_lookup_none _ _ hfresh
  -- entry after each recording
  have he1ex : (bumpEntry (freshEntry ty) text layer sid1).examples = [text] := by
    simp [bumpEntry, freshEntry]
  have he1prom : (bumpEntry (freshEntry ty) text layer sid1).promoted = false := by
    simp [bumpEntry, freshEntry]
  have he2count : (bumpEntry (bumpEntry (freshEntry ty) text layer sid1) text
      layer sid2).count = 2 := by
    rw [bumpEntry_count, bumpEntry_count]
    rfl
  have he2prom : (bumpEntry (bumpEntry (freshEntry ty) text layer sid1) text
      layer sid2).promoted = false := by
    rw [bumpEntry_promoted, bumpEntry_promoted]
    rfl
  have he2ex : (bumpEntry (bumpEntry (freshEntry ty) text layer sid1) text
      layer sid2).examples = [text] := by
    rw [bumpEntry_examples_mem _ _ _ _ (by rw [he1ex]; simp), he1ex]
  have he2ty : (bumpEntry (bumpEntry (freshEntry ty) text layer sid1) text
      layer sid2).attack_type = ty := by
    rw [bumpEntry_attack_type, bumpEntry_attack_type]
    rfl
  -- step 1
  have hs1 : record_attack_event text ty layer sid1 s =
      Except.ok ⟨s.pending ++ [(text, bumpEntry (freshEntry ty) text layer sid1)],
        s.seeds⟩ := by
    simp [record_attack_event, hv1, hfresh]
  -- step 2
  have hlook1 : lookupPending
      (s.pending ++ [(text, bumpEntry (freshEntry ty) text layer sid1)]) text =
      some (bumpEntry (freshEntry ty) text layer sid1) :=
    lookupPending_append_right _ _ _ hkf
  have hs2 : record_attack_event text ty layer sid2
      ⟨s.pending ++ [(text, bumpEntry (freshEntry ty) text layer sid1)], s.seeds⟩ =
      Except.ok ⟨s.pending ++ [(text, bumpEntry (bumpEntry (freshEntry ty) text
        layer sid1) text layer sid2)], s.seeds⟩ := by
    simp only [record_attack_event, hv2, hlook1]
    rw [replace_append s.pending text _ _ hkf]
  -- the sweep after two recordings
  have hsw2 : sweepGo D (s.pending ++ [(text, bumpEntry (bumpEntry
      (freshEntry ty) text layer sid1) text layer sid2)]) s.seeds =
      ((sweepGo D s.pending s.seeds).1 ++ [(text, bumpEntry (bumpEntry
        (freshEntry ty) text layer sid1) text layer sid2)],
       (sweepGo D s.pending s.seeds).2.1,
       (sweepGo D s.pending s.seeds).2.2.1 + 0,
       (sweepGo D s.pending s.seeds).2.2.2 + 1) := by
    rw [sweepGo_append]
    rw [sweepGo_singleton_pending D text _ _ he2prom (by rw [he2count]; omega)]
  have hstate2 : (process_pending_patterns D ⟨s.pending ++ [(text, bumpEntry
      (bumpEntry (freshEntry ty) text layer sid1) text layer sid2)],
      s.seeds⟩).2 =
      ⟨(sweepGo D s.pending s.seeds).1 ++ [(text, bumpEntry (bumpEntry
        (freshEntry ty) text layer sid1) text layer sid2)],
       (sweepGo D s.pending s.seeds).2.1⟩ := by
    simp only [process_pending_patterns, hsw2]
  have hnotin1 : text ∉ ((sweepGo D s.pending s.seeds).2.1).map
      AttackSeed.text :=
    sweepGo_no_new_text D s.pending text s.seeds hheads hseed
  have hkf1 : ∀ p ∈ (sweepGo D s.pending s.seeds).1, (p.1 == text) = false :=
    sweepGo_keyfree D s.pending text s.seeds hkf
  refine ⟨_, _, hs1, hs2, ?_, ?_, ?_⟩
  · rw [hstate2]
    exact hnotin1
  · refine ⟨_, ?_, he2count, he2prom⟩
    rw [hstate2]
    exact lookupPending_append_right _ _ _ hkf1
  · -- third recording
    have hlook2 : lookupPending ((process_pending_patterns D ⟨s.pending ++
        [(text, bumpEntry (bumpEntry (freshEntry ty) text layer sid1) text
        layer sid2)], s.seeds⟩).2).pending text =
        some (bumpEntry (bumpEntry (freshEntry ty) text layer sid1) text
          layer sid2) := by
      rw [hstate2]
      exact lookupPending_append_right _ _ _ hkf1
    have he3count : (bumpEntry (bumpEntry (bumpEntry (freshEntry ty) text
        layer sid1) text layer sid2) text layer sid3).count = 3 := by
      rw [bumpEntry_count, he2count]
    have he3prom : (bumpEntry (bumpEntry (bumpEntry (freshEntry ty) text
        layer sid1) text layer sid2) text layer sid3).promoted = false := by
      rw [bumpEntry_promoted, he2prom]
    have he3ex : (bumpEntry (bumpEntry (bumpEntry (freshEntry ty) text
        layer sid1) text layer sid2) text layer sid3).examples = [text] := by
      rw [bumpEntry_examples_mem _ _ _ _ (by rw [he2ex]; simp), he2ex]
    have he3ty : (bumpEntry (bumpEntry (bumpEntry (freshEntry ty) text
        layer sid1) text layer sid2) text layer sid3).attack_type = ty := by
      rw [bumpEntry_attack_type, he2ty]
    have hs3 : record_attack_event text ty layer sid3
        ((process_pending_patterns D ⟨s.pending ++ [(text, bumpEntry
          (bumpEntry (freshEntry ty) text layer sid1) text layer sid2)],
          s.seeds⟩).2) =
        Except.ok ⟨(sweepGo D s.pending s.seeds).1 ++ [(text, bumpEntry
          (bumpEntry (bumpEntry (freshEntry ty) text layer sid1) text layer
          sid2) text layer sid3)], (sweepGo D s.pending s.seeds).2.1⟩ := by
      simp only [record_attack_event, hv3, hstate2,
        lookupPending_append_right _ _ _ hkf1]
      rw [replace_append _ text _ _ hkf1]
    have hall1 : ∀ p ∈ (sweepGo D s.pending s.seeds).1,
        3 ≤ p.2.count → p.2.promoted = true :=
      sweepGo_all_promoted D s.pending s.seeds
    have hstab := sweepGo_stable D (sweepGo D s.pending s.seeds).1
      (sweepGo D s.pending s.seeds).2.1 hall1
    have hmem3 : (bumpEntry (bumpEntry (bumpEntry (freshEntry ty) text layer
        sid1) text layer sid2) text layer sid3).examples.headD "" ∉
        ((sweepGo D s.pending s.seeds).2.1).map AttackSeed.text := by
      rw [he3ex]
      simpa using hnotin1
    have hsw3 : sweepGo D ((sweepGo D s.pending s.seeds).1 ++ [(text,
        bumpEntry (bumpEntry (bumpEntry (freshEntry ty) text layer sid1) text
        layer sid2) text layer sid3)]) (sweepGo D s.pending s.seeds).2.1 =
        ((sweepGo D s.pending s.seeds).1 ++ [(text, { bumpEntry (bumpEntry
          (bumpEntry (freshEntry ty) text layer sid1) text layer sid2) text
          layer sid3 with promoted := true })],
         (sweepGo D s.pending s.seeds).2.1 ++ [⟨text,
           hash_text_to_384 D text, ty⟩],
         0 + 1,
         (sweepGo D ((sweepGo D s.pending s.seeds).1)
           ((sweepGo D s.pending s.seeds).2.1)).2.2.2 + 0) := by
      rw [sweepGo_append]
      rw [hstab.2.1, hstab.1, hstab.2.2]
      rw [sweepGo_singleton_promote D text _ _ he3prom (by simp [he3count])
        hmem3]
      simp [he3ex, he3ty]
    refine ⟨_, hs3, ?_, ?_, ?_, ?_⟩
    · simp only [process_pending_patterns, hsw3]
    · simp only [process_pending_patterns, hsw3, seedTexts]
      rw [List.map_append, List.count_append]
      rw [List.count_eq_zero.mpr hnotin1]
      simp
    · refine ⟨⟨text, hash_text_to_384 D text, ty⟩, ?_, rfl, rfl, ?_⟩
      · simp only [process_pending_patterns, hsw3]
        exact List.mem_append_right _ (by simp)
      · show (hash_text_to_384 D text).length = 384
        unfold hash_text_to_384
        exact embed_turn_length _
    · refine ⟨{ bumpEntry (bumpEntry (bumpEntry (freshEntry ty) text layer
        sid1) text layer sid2) text layer sid3 with promoted := true },
        ?_, rfl⟩
      simp only [process_pending_patterns, hsw3]
      exact lookupPending_append_right _ _ _ hkf1

/-- **C4** witness: a fresh engine, text "evil attack" recorded from three
session ids. -/
theorem record_three_promotes_once_witness :
    ∃ s1 s2, record_attack_event "evil attack" "inj" 1 "a" engine0 =
        Except.ok s1 ∧
      record_attack_event "evil attack" "inj" 1 "b" s1 = Except.ok s2 ∧
      "evil attack" ∉ seedTexts (process_pending_patterns digestZeroS s2).2 ∧
      (∃ e, lookupPending (process_pending_patterns digestZeroS s2).2.pending
        "evil attack" = some e ∧ e.count = 2 ∧ e.promoted = false) ∧
      (∃ s3, record_attack_event "evil attack" "inj" 1 "c"
          (process_pending_patterns digestZeroS s2).2 = Except.ok s3 ∧
        (process_pending_patterns digestZeroS s3).1.1 = 1 ∧
        (seedTexts (process_pending_patterns digestZeroS s3).2).count
          "evil attack" = 1 ∧
        (∃ sd, sd ∈ (process_pending_patterns digestZeroS s3).2.seeds ∧
          sd.text = "evil attack" ∧ sd.attack_type = "inj" ∧
          sd.embedding.length = 384) ∧
        (∃ e, lookupPending (process_pending_patterns digestZeroS s3).2.pending
          "evil attack" = some e ∧ e.promoted = true)) :=
  record_three_promotes_once digestZeroS engine0 "evil attack" "inj" 1
    "a" "b" "c" (by decide) (by decide) (by decide) rfl
    (by simp [seedTexts, engine0]) (by simp [engine0])

end AgentShield
